import Mathlib

/-! Bipartite graph editor (`main.go`): shallow embedding and verification.

The Go program keeps its graph in heap-allocated `Node` objects that refer to
each other through pointers.  The embedding makes the heap explicit: a pointer
is a position in the list `svgCanvas.heap`, `nil` is `none`, and every Go map is
an association list with unique keys.

Modelling decisions, all of them local to this file:

* `NodeType` is a string type in Go with exactly two declared constants; every
  node the program creates carries one of them, so it is an enumeration here.
* Go `int` is 64 bits wide: the two places where the program does arithmetic on
  an `int` (`n.Index - delta` in `State`, `nodeTypeCounts[t]++` in `createNode`)
  wrap with `wrap64`.
* A Go map is iterated in an unspecified order; the association lists are
  iterated in insertion order, which is one of the orders Go may choose.
* `posToNode` is a map of maps in Go; here it is one map keyed by the pair
  `(X, Y)`.  The inner maps that `spaceFreeAt` and `createNode` create on demand
  are empty and are not observable through any lookup.
* The history holds JSON text in Go.  `encoding/json` is outside the program;
  the embedding stores the value `svgCanvasJson` that the text encodes
  (marshalling followed by unmarshalling is the identity on such values).
* A Go panic (explicit, nil dereference, index out of range) ends the
  WebAssembly program; it is the `panic` outcome of `Res`.
* Rendering (`Render`, `RenderLines`, `Update`, `Scale`, the DOM event object)
  does not touch the graph state and is left out.
-/

namespace GraphEditor

/-! ## Data model -/

/-- The two node kinds, `CheckNode` and `VarNode` of `main.go`.  In Go the type
is a string; createNode with any other string panics at line 259, because
`sc.nodeMap` has an inner map for these two keys only, so no node of another
kind exists in a state the program continues from. -/
inductive NodeType where
  | CheckNode
  | VarNode
deriving DecidableEq, Repr

/-- A pointer to a `Node`: its position in the heap. -/
abbrev Ptr := Nat

/-- The ways the Go code can abort. -/
inductive Panic where
  /-- Dereference of a nil pointer (or of a pointer outside the heap). -/
  | nilDereference
  /-- The explicit panic of ConnectTo: can't connect same node types. -/
  | sameNodeTypes
  /-- The explicit panics of DeleteNode: expected to exists. -/
  | expectedToExist
  /-- Slice index out of range. -/
  | indexOutOfRange
  /-- Unbounded mutual recursion (the Go runtime stops with a stack overflow). -/
  | stackOverflow
deriving DecidableEq, Repr

/-- Outcome of a Go call that may panic. -/
inductive Res (α : Type) where
  | ok (a : α)
  | panic (e : Panic)
deriving DecidableEq, Repr

/-- The Go struct Node (without the rendering fields). -/
structure Node where
  NodeType : NodeType
  Index : Int
  Connections : List (Int × Ptr)
  X : Int
  Y : Int
  Selected : Bool
  Highlighted : Bool
deriving DecidableEq, Repr

/-- The Go struct nodeJson: one exported record. -/
structure nodeJson where
  Connections : List Int
  Index : Int
  X : Int
  Y : Int
  Type' : NodeType
deriving DecidableEq, Repr

/-- The Go struct svgCanvasJson: the exported graph. -/
structure svgCanvasJson where
  Nodes : List nodeJson
deriving DecidableEq, Repr

/-- The Go struct svgCanvas together with the heap its pointers refer to. -/
structure svgCanvas where
  heap : List Node
  keys : List (Int × Bool)
  history : List svgCanvasJson
  nodes : List Ptr
  nodeMap : List ((NodeType × Int) × Ptr)
  nodeTypeCounts : List (NodeType × Int)
  posToNode : List ((Int × Int) × Ptr)
  selectedNode : Option Ptr
deriving DecidableEq, Repr

/-! ## Go primitives -/

/-- Key codes of `main.go`. -/
def Ctrl : Int := 17
/-- Key code of the Z key. -/
def KeyZ : Int := 90
/-- Key code of Escape. -/
def Esc : Int := 27
/-- Key code of Delete. -/
def Del : Int := 46

/-- The Go constant math.MaxInt on a 64-bit platform. -/
def MaxInt : Int := 9223372036854775807

/-- Two's complement wrap-around of a 64-bit Go int. -/
def wrap64 (v : Int) : Int :=
  (v + 9223372036854775808) % 18446744073709551616 - 9223372036854775808

/-- Map lookup `m[k]` with the comma-ok result. -/
def mapGet? {κ α : Type} [DecidableEq κ] : List (κ × α) → κ → Option α
  | [], _ => none
  | (k', v) :: m, k => if k' = k then some v else mapGet? m k

/-- Map assignment `m[k] = v`. -/
def mapSet {κ α : Type} [DecidableEq κ] : List (κ × α) → κ → α → List (κ × α)
  | [], k, v => [(k, v)]
  | (k', v') :: m, k, v => if k' = k then (k, v) :: m else (k', v') :: mapSet m k v

/-- Map deletion `delete(m, k)`. -/
def mapDelete {κ α : Type} [DecidableEq κ] : List (κ × α) → κ → List (κ × α)
  | [], _ => []
  | (k', v') :: m, k => if k' = k then mapDelete m k else (k', v') :: mapDelete m k

/-- Write through a pointer: replace the object at `p` by `f` of it. -/
def heapModify (h : List Node) (p : Ptr) (f : Node → Node) : List Node :=
  match h[p]? with
  | some n => h.set p (f n)
  | none => h

/-! ## Connection manager -/

/-- The body of ConnectTo once the receiver `p` is known to be the CheckNode:
lines 91-97. -/
def Node.connectFromCheck (h : List Node) (p : Ptr) (n : Node) (q : Ptr) (node : Node) :
    Res Bool × List Node :=
  match mapGet? n.Connections node.Index with
  | none =>
    let h1 := heapModify h p (fun a => { a with Connections := mapSet a.Connections node.Index q })
    let h2 := heapModify h1 q (fun b => { b with Connections := mapSet b.Connections n.Index p })
    (Res.ok true, h2)
  | some _ => (Res.ok false, h)

/-- The method `(n *Node) ConnectTo(node *Node) bool`.  The result carries the
heap as it is when the call returns or panics.  The recursive call
`node.ConnectTo(n)` of line 88 has a present argument and a receiver of the
other type, which is the CheckNode, so it continues at line 91. -/
def Node.ConnectTo (h : List Node) (n : Option Ptr) (node : Option Ptr) : Res Bool × List Node :=
  match node with
  | none => (Res.ok false, h)
  | some q =>
    match n with
    | none => (Res.panic Panic.nilDereference, h)
    | some p =>
      match h[p]?, h[q]? with
      | some a, some b =>
        if a.NodeType = b.NodeType then (Res.panic Panic.sameNodeTypes, h)
        else if a.NodeType ≠ NodeType.CheckNode then Node.connectFromCheck h q b p a
        else Node.connectFromCheck h p a q b
      | _, _ => (Res.panic Panic.nilDereference, h)

/-- The method `(n *Node) DeleteConnectionTo(node *Node)`.  With two present
VarNodes the two calls of line 107 call each other without end. -/
def Node.DeleteConnectionTo (h : List Node) (n : Option Ptr) (node : Option Ptr) :
    Res Unit × List Node :=
  match node with
  | none => (Res.ok (), h)
  | some q =>
    match n with
    | none => (Res.panic Panic.nilDereference, h)
    | some p =>
      match h[p]?, h[q]? with
      | some a, some b =>
        if a.NodeType = NodeType.CheckNode then
          (Res.ok (), heapModify h p (fun c => { c with Connections := mapDelete c.Connections b.Index }))
        else if b.NodeType = NodeType.CheckNode then
          (Res.ok (), heapModify h q (fun c => { c with Connections := mapDelete c.Connections a.Index }))
        else (Res.panic Panic.stackOverflow, h)
      | _, _ => (Res.panic Panic.nilDereference, h)

/-! ## Serializer: export -/

/-- The first loop of State (lines 383-393): the smallest Index per type,
starting from `(checkDelta, varDelta)`. -/
def stateDeltas (h : List Node) : List Ptr → Int × Int → Int × Int
  | [], d => d
  | p :: ps, (checkDelta, varDelta) =>
    match h[p]? with
    | some n =>
      if n.NodeType = NodeType.CheckNode then
        stateDeltas h ps (if n.Index < checkDelta then n.Index else checkDelta, varDelta)
      else
        stateDeltas h ps (checkDelta, if n.Index < varDelta then n.Index else varDelta)
    | none => stateDeltas h ps (checkDelta, varDelta)

/-- One iteration of the second loop of State (lines 397-413). -/
def stateRecord (checkDelta varDelta : Int) (n : Node) : nodeJson :=
  { Connections := n.Connections.map Prod.fst
    Index := wrap64 (n.Index - (if n.NodeType = NodeType.CheckNode then checkDelta else varDelta))
    Type' := n.NodeType
    X := n.X
    Y := n.Y }

/-- The method `(sc *svgCanvas) State()`: the exported graph.  Every pointer of
`sc.nodes` is allocated, so the dereference in the loops cannot fail. -/
def svgCanvas.State (sc : svgCanvas) : svgCanvasJson :=
  let d := stateDeltas sc.heap sc.nodes (MaxInt, MaxInt)
  { Nodes := sc.nodes.filterMap (fun p => (sc.heap[p]?).map (stateRecord d.1 d.2)) }

/-- The method addToHistory. -/
def svgCanvas.addToHistory (sc : svgCanvas) : svgCanvas :=
  { sc with history := sc.history ++ [sc.State] }

/-! ## Node registry -/

/-- The method spaceFreeAt. -/
def svgCanvas.spaceFreeAt (sc : svgCanvas) (x y : Int) : Bool :=
  (mapGet? sc.posToNode (x, y)).isNone

/-- Read of `nodeTypeCounts[t]` (zero when the key is missing). -/
def svgCanvas.count (sc : svgCanvas) (t : NodeType) : Int :=
  (mapGet? sc.nodeTypeCounts t).getD 0

/-- The method createNode: the new canvas and the returned pointer (nil when the
cell is taken; the object allocated at line 239 is then unreachable and is not
kept in the heap). -/
def svgCanvas.createNode (sc : svgCanvas) (nodeType : NodeType) (index x y : Int) :
    svgCanvas × Option Ptr :=
  match mapGet? sc.posToNode (x, y) with
  | some _ => (sc, none)
  | none =>
    let n : Ptr := sc.heap.length
    ({ sc with
        heap := sc.heap ++ [{ NodeType := nodeType, Index := index, Connections := [],
                              X := x, Y := y, Selected := false, Highlighted := false }]
        posToNode := mapSet sc.posToNode (x, y) n
        nodes := sc.nodes ++ [n]
        nodeMap := mapSet sc.nodeMap (nodeType, index) n
        nodeTypeCounts := mapSet sc.nodeTypeCounts nodeType (wrap64 (sc.count nodeType + 1)) },
     some n)

/-- The method createNewNode. -/
def svgCanvas.createNewNode (sc : svgCanvas) (nodeType : NodeType) (x y : Int) :
    svgCanvas × Option Ptr :=
  sc.createNode nodeType (sc.count nodeType) x y

/-- The call slices.IndexFunc of DeleteNode: position of the first node of
`nodes` with the given type and index. -/
def indexFunc (h : List Node) (t : NodeType) (index : Int) : List Ptr → Option Nat
  | [] => none
  | p :: ps =>
    match h[p]? with
    | some del =>
      if del.NodeType = t ∧ del.Index = index then some 0
      else (indexFunc h t index ps).map (fun i => i + 1)
    | none => (indexFunc h t index ps).map (fun i => i + 1)

/-- The method DeleteNode. -/
def svgCanvas.DeleteNode (sc : svgCanvas) (n : Option Ptr) : Res svgCanvas :=
  match n.bind (fun p => sc.heap[p]?) with
  | none => Res.panic Panic.nilDereference
  | some nd =>
    match mapGet? sc.posToNode (nd.X, nd.Y) with
    | none => Res.panic Panic.expectedToExist
    | some _ =>
      match indexFunc sc.heap nd.NodeType nd.Index sc.nodes, sc.nodes.getLast? with
      | some i, some last =>
        Res.ok { sc with
          posToNode := mapDelete sc.posToNode (nd.X, nd.Y)
          nodes := (sc.nodes.set i last).dropLast
          nodeMap := mapDelete sc.nodeMap (nd.NodeType, nd.Index) }
      | _, _ => Res.panic Panic.expectedToExist

/-! ## Serializer: import -/

/-- The first loop of SetState (lines 436-443): create one node per record and
remember the returned pointer (possibly nil) under the record's index. -/
def setStateCreate (sc : svgCanvas) :
    List nodeJson → List (Int × Option Ptr) → List (Int × Option Ptr) →
      svgCanvas × List (Int × Option Ptr) × List (Int × Option Ptr)
  | [], indexToVars, indexToChecks => (sc, indexToVars, indexToChecks)
  | node :: rest, indexToVars, indexToChecks =>
    let r := sc.createNode node.Type' node.Index node.X node.Y
    if node.Type' = NodeType.VarNode then
      setStateCreate r.1 rest (mapSet indexToVars node.Index r.2) indexToChecks
    else
      setStateCreate r.1 rest indexToVars (mapSet indexToChecks node.Index r.2)

/-- The inner loop of SetState (lines 452-454). -/
def setStateConnect (indexToVars : List (Int × Option Ptr)) (n : Option Ptr) :
    List Node → List Int → Res Unit × List Node
  | h, [] => (Res.ok (), h)
  | h, c :: cs =>
    match Node.ConnectTo h n ((mapGet? indexToVars c).join) with
    | (Res.ok _, h1) => setStateConnect indexToVars n h1 cs
    | (Res.panic e, h1) => (Res.panic e, h1)

/-- The second loop of SetState (lines 445-455). -/
def setStateWire (indexToVars indexToChecks : List (Int × Option Ptr)) :
    List Node → List nodeJson → Res Unit × List Node
  | h, [] => (Res.ok (), h)
  | h, node :: rest =>
    if node.Type' = NodeType.VarNode then setStateWire indexToVars indexToChecks h rest
    else
      match setStateConnect indexToVars ((mapGet? indexToChecks node.Index).join) h
          node.Connections with
      | (Res.ok _, h1) => setStateWire indexToVars indexToChecks h1 rest
      | (Res.panic e, h1) => (Res.panic e, h1)

/-- The method SetState, applied to the decoded payload. -/
def svgCanvas.SetState (sc : svgCanvas) (state : svgCanvasJson) : Res svgCanvas :=
  let sc0 : svgCanvas :=
    { sc with
      selectedNode := none
      keys := []
      nodes := []
      nodeMap := []
      posToNode := []
      nodeTypeCounts := [(NodeType.CheckNode, 0), (NodeType.VarNode, 0)] }
  let r := setStateCreate sc0 state.Nodes [] []
  match setStateWire r.2.1 r.2.2 r.1.heap state.Nodes with
  | (Res.ok _, h) => Res.ok { r.1 with heap := h }
  | (Res.panic e, _) => Res.panic e

/-- The canvas before OnMount: the zero value of the Go struct. -/
def svgCanvas.zero : svgCanvas :=
  { heap := [], keys := [], history := [], nodes := [], nodeMap := [],
    nodeTypeCounts := [], posToNode := [], selectedNode := none }

/-- The method OnMount: the canvas the editor starts with. -/
def svgCanvas.OnMount : Res svgCanvas :=
  svgCanvas.zero.SetState { Nodes := [] }

/-! ## Selection and interaction -/

/-- Lines 212-216 of the canvas OnClick: select `n` and record history. -/
def svgCanvas.selectAndRecord (sc : svgCanvas) (n : Option Ptr) (changed : Bool) :
    Res svgCanvas :=
  match n with
  | none => Res.panic Panic.nilDereference
  | some p =>
    match sc.heap[p]? with
    | none => Res.panic Panic.nilDereference
    | some _ =>
      let sc1 : svgCanvas :=
        { sc with
          selectedNode := some p
          heap := heapModify sc.heap p (fun a => { a with Selected := true }) }
      Res.ok (if changed then sc1.addToHistory else sc1)

/-- Lines 185-193 of the canvas OnClick: create a node when the cell is free;
the result is the canvas and the flag `changed`. -/
def svgCanvas.createOnFreeCell (sc : svgCanvas) (x y : Int) : svgCanvas × Bool :=
  if sc.spaceFreeAt x y then
    match sc.selectedNode.bind (fun s => sc.heap[s]?) with
    | some sn =>
      if sn.NodeType = NodeType.CheckNode then ((sc.createNewNode NodeType.VarNode x y).1, true)
      else ((sc.createNewNode NodeType.CheckNode x y).1, true)
    | none => ((sc.createNewNode NodeType.CheckNode x y).1, true)
  else (sc, false)

/-- Lines 195-216 of the canvas OnClick: the dispatch to the occupant `n` of the
clicked cell. -/
def svgCanvas.clickOccupant (sc : svgCanvas) (n : Option Ptr) (changed : Bool) :
    Res svgCanvas :=
  if n = sc.selectedNode then Res.ok sc
  else
    match sc.selectedNode with
    | none => sc.selectAndRecord n changed
    | some s =>
      let h1 := heapModify sc.heap s (fun a => { a with Selected := false })
      match h1[s]?, n.bind (fun p => h1[p]?) with
      | some sn, some nn =>
        if sn.NodeType ≠ nn.NodeType then
          match Node.ConnectTo h1 (some s) n with
          | (Res.ok _, h2) => svgCanvas.selectAndRecord { sc with heap := h2 } n true
          | (Res.panic e, _) => Res.panic e
        else svgCanvas.selectAndRecord { sc with heap := h1 } n changed
      | _, _ => Res.panic Panic.nilDereference

/-- The method `(sc *svgCanvas) OnClick`, applied to the grid cell `(x, y)` the
click was mapped to. -/
def svgCanvas.OnClick (sc : svgCanvas) (x y : Int) : Res svgCanvas :=
  let r := sc.createOnFreeCell x y
  r.1.clickOccupant (mapGet? r.1.posToNode (x, y)) r.2

/-- Lines 135-136 of the node OnClick: `n` becomes the selection. -/
def Node.select (sc : svgCanvas) (n : Ptr) : Res svgCanvas :=
  match sc.heap[n]? with
  | none => Res.panic Panic.nilDereference
  | some _ =>
    Res.ok { sc with
      selectedNode := some n
      heap := heapModify sc.heap n (fun a => { a with Selected := true }) }

/-- The method `(n *Node) OnClick`: a click delivered to the node `n` itself.
The field `parent` of every node is set by createNode, so the panic of line 113
cannot occur. -/
def Node.OnClick (sc : svgCanvas) (n : Ptr) : Res svgCanvas :=
  if some n = sc.selectedNode then Res.ok sc
  else
    match sc.selectedNode with
    | none => Node.select sc n
    | some s =>
      let h1 := heapModify sc.heap s (fun a => { a with Selected := false, Highlighted := false })
      match h1[s]?, h1[n]? with
      | some sn, some nn =>
        if sn.NodeType ≠ nn.NodeType then
          match Node.ConnectTo h1 (some s) (some n) with
          | (Res.ok true, h2) => Node.select (svgCanvas.addToHistory { sc with heap := h2 }) n
          | (Res.ok false, h2) => Node.select { sc with heap := h2 } n
          | (Res.panic e, _) => Res.panic e
        else Node.select { sc with heap := h1 } n
      | _, _ => Res.panic Panic.nilDereference

/-- The method OnMouseEnter of a node. -/
def Node.OnMouseEnter (sc : svgCanvas) (n : Ptr) : svgCanvas :=
  { sc with heap := heapModify sc.heap n (fun a => { a with Highlighted := true }) }

/-- The method OnMouseLeave of a node. -/
def Node.OnMouseLeave (sc : svgCanvas) (n : Ptr) : svgCanvas :=
  { sc with heap := heapModify sc.heap n (fun a => { a with Highlighted := false }) }

/-- Read of `sc.keys[k]` (false when the key is missing). -/
def svgCanvas.keyHeld (sc : svgCanvas) (k : Int) : Bool :=
  (mapGet? sc.keys k).getD false

/-- The Escape case of OnKeyDown (lines 331-334). -/
def svgCanvas.onEscape (sc : svgCanvas) : Res svgCanvas :=
  match sc.selectedNode with
  | none => Res.panic Panic.nilDereference
  | some s =>
    match sc.heap[s]? with
    | none => Res.panic Panic.nilDereference
    | some _ =>
      Res.ok { sc with
        heap := heapModify sc.heap s (fun a => { a with Selected := false })
        selectedNode := none }

/-- The Undo case of OnKeyDown (lines 336-344).  After the last entry is
dropped, `sc.history[len(sc.history)-1]` is the last remaining entry; when none
remains the index is -1 and the slice access panics. -/
def svgCanvas.onUndo (sc : svgCanvas) : Res svgCanvas :=
  if sc.history.length = 0 then Res.ok sc
  else
    let history := sc.history.dropLast
    match history.getLast? with
    | none => Res.panic Panic.indexOutOfRange
    | some state => svgCanvas.SetState { sc with history := history } state

/-- The loop of the Delete case (lines 351-353) over the entries of
`node.Connections` as they were when the loop started; an entry that was
removed before it is reached is not produced. -/
def deleteConnections (node : Ptr) : List Node → List (Int × Ptr) → Res Unit × List Node
  | h, [] => (Res.ok (), h)
  | h, (k, _) :: rest =>
    match (h[node]?).bind (fun nd => mapGet? nd.Connections k) with
    | none => deleteConnections node h rest
    | some n =>
      match Node.DeleteConnectionTo h (some node) (some n) with
      | (Res.ok _, h1) => deleteConnections node h1 rest
      | (Res.panic e, h1) => (Res.panic e, h1)

/-- The Delete case of OnKeyDown (lines 347-355). -/
def svgCanvas.onDelete (sc : svgCanvas) : Res svgCanvas :=
  let node := sc.selectedNode
  let sc1 : svgCanvas := { sc with selectedNode := none }
  match node.bind (fun p => (sc1.heap[p]?).map (fun nd => (p, nd))) with
  | none => Res.panic Panic.nilDereference
  | some (p, nd) =>
    match deleteConnections p sc1.heap nd.Connections with
    | (Res.panic e, _) => Res.panic e
    | (Res.ok _, h) =>
      match svgCanvas.DeleteNode { sc1 with heap := h } node with
      | Res.panic e => Res.panic e
      | Res.ok sc2 => Res.ok sc2.addToHistory

/-- The method OnKeyDown, applied to the key code of the event. -/
def svgCanvas.OnKeyDown (sc : svgCanvas) (k : Int) : Res svgCanvas :=
  match mapGet? sc.keys k with
  | some _ => Res.ok sc
  | none =>
    let sc1 : svgCanvas := { sc with keys := mapSet sc.keys k true }
    if sc1.keyHeld Esc then sc1.onEscape
    else if sc1.keyHeld Ctrl && sc1.keyHeld KeyZ then sc1.onUndo
    else if sc1.keyHeld Del then sc1.onDelete
    else Res.ok sc1

/-- The method OnKeyUp, applied to the key code of the event. -/
def svgCanvas.OnKeyUp (sc : svgCanvas) (k : Int) : svgCanvas :=
  match mapGet? sc.keys k with
  | some _ => { sc with keys := mapDelete sc.keys k }
  | none => sc

/-! ## The editor as a state machine -/

/-- The intents the input adapter delivers. -/
inductive Intent where
  | pointClicked (x y : Int)
  | nodeClicked (n : Ptr)
  | hoverEnter (n : Ptr)
  | hoverLeave (n : Ptr)
  | keyDown (k : Int)
  | keyUp (k : Int)
deriving DecidableEq, Repr

/-- Node events come from rendered nodes, which are the nodes of `sc.nodes`. -/
def Intent.enabled (sc : svgCanvas) : Intent → Bool
  | Intent.nodeClicked n => decide (n ∈ sc.nodes)
  | Intent.hoverEnter n => decide (n ∈ sc.nodes)
  | Intent.hoverLeave n => decide (n ∈ sc.nodes)
  | _ => true

/-- Dispatch of one intent to its handler; an event of a node that is not
rendered is not delivered. -/
def step (sc : svgCanvas) (i : Intent) : Res svgCanvas :=
  if i.enabled sc then
    match i with
    | Intent.pointClicked x y => sc.OnClick x y
    | Intent.nodeClicked n => Node.OnClick sc n
    | Intent.hoverEnter n => Res.ok (Node.OnMouseEnter sc n)
    | Intent.hoverLeave n => Res.ok (Node.OnMouseLeave sc n)
    | Intent.keyDown k => sc.OnKeyDown k
    | Intent.keyUp k => Res.ok (sc.OnKeyUp k)
  else Res.ok sc

/-- Run a sequence of intents, stopping at the first panic. -/
def run : Res svgCanvas → List Intent → Res svgCanvas
  | r, [] => r
  | Res.ok sc, i :: rest => run (step sc i) rest
  | Res.panic e, _ => Res.panic e

/-- The states the editor can be in: those obtained from the mounted canvas by
delivering intents. -/
inductive Reachable : svgCanvas → Prop where
  | mount {sc : svgCanvas} : svgCanvas.OnMount = Res.ok sc → Reachable sc
  | step {sc sc1 : svgCanvas} (i : Intent) : Reachable sc → step sc i = Res.ok sc1 → Reachable sc1

/-! ## Properties the specification states -/

/-- Apply a function to the result of a call that did not panic. -/
def Res.map {α β : Type} (f : α → β) : Res α → Res β
  | Res.ok a => Res.ok (f a)
  | Res.panic e => Res.panic e

/-- Continue with a further call when the first one did not panic. -/
def Res.bind {α β : Type} (r : Res α) (f : α → Res β) : Res β :=
  match r with
  | Res.ok a => f a
  | Res.panic e => Res.panic e

/-- The nodes of the node list, dereferenced. -/
def svgCanvas.liveNodes (sc : svgCanvas) : List Node :=
  sc.nodes.filterMap (fun p => sc.heap[p]?)

/-- Every entry of every connection set refers to an allocated node of the other
type whose Index is the key of the entry. -/
def Bipartite (h : List Node) : Prop :=
  ∀ (p : Ptr) (n : Node), h[p]? = some n → ∀ (k : Int) (q : Ptr), (k, q) ∈ n.Connections →
    ∃ m : Node, h[q]? = some m ∧ m.NodeType ≠ n.NodeType ∧ m.Index = k

/-- The Index that the exported record of the node at `q` carries. -/
def svgCanvas.exportedIndex (sc : svgCanvas) (q : Ptr) : Option Int :=
  let d := stateDeltas sc.heap sc.nodes (MaxInt, MaxInt)
  (sc.heap[q]?).map (fun m => (stateRecord d.1 d.2 m).Index)

/-- The export lists, for every node, the exported indices of its connected
nodes. -/
def svgCanvas.connectionsNormalized (sc : svgCanvas) : Bool :=
  decide (sc.State.Nodes.map (fun r => r.Connections.map some) =
    sc.liveNodes.map (fun n => n.Connections.map (fun e => sc.exportedIndex e.2)))

/-- Two exported records agree, their Connections compared as sets. -/
def sameRecord (a b : nodeJson) : Bool :=
  decide (a.Index = b.Index ∧ a.X = b.X ∧ a.Y = b.Y ∧ a.Type' = b.Type') &&
    a.Connections.all (fun c => decide (c ∈ b.Connections)) &&
    b.Connections.all (fun c => decide (c ∈ a.Connections))

/-- Two exports agree record by record, Connections compared as sets. -/
def sameExport (a b : svgCanvasJson) : Bool :=
  decide (a.Nodes.length = b.Nodes.length) && (List.zipWith sameRecord a.Nodes b.Nodes).all id

/-- Export, import the result, export again. -/
def svgCanvas.reExport (sc : svgCanvas) : Res svgCanvasJson :=
  (sc.SetState sc.State).map svgCanvas.State

/-- The connection set of `a` holds the Index of `b`. -/
def Node.connectedTo (a b : Node) : Bool :=
  (mapGet? a.Connections b.Index).isSome

/-- Adjacency of the live nodes is symmetric across the two types. -/
def svgCanvas.adjacencySymmetric (sc : svgCanvas) : Bool :=
  sc.liveNodes.all (fun a => sc.liveNodes.all (fun b =>
    decide (a.NodeType = b.NodeType) || (a.connectedTo b == b.connectedTo a)))

/-- Type and Index of every live node, in the order of the node list. -/
def svgCanvas.liveIdentities (sc : svgCanvas) : List (NodeType × Int) :=
  sc.liveNodes.map (fun n => (n.NodeType, n.Index))

/-- No two live nodes of one type share an Index. -/
def svgCanvas.indicesUnique (sc : svgCanvas) : Bool :=
  decide sc.liveIdentities.Nodup

/-- The Delete intent: the Delete key goes down and up. -/
def pressDelete : List Intent := [Intent.keyDown Del, Intent.keyUp Del]

/-- The Undo intent: Z goes down while Ctrl is held. -/
def pressUndo : List Intent :=
  [Intent.keyDown Ctrl, Intent.keyDown KeyZ, Intent.keyUp KeyZ, Intent.keyUp Ctrl]

/-- Create a CheckNode and a VarNode, delete the VarNode, select the CheckNode
again and create a second VarNode next to it. -/
def traceRecreateVar : List Intent :=
  [Intent.pointClicked 0 0, Intent.pointClicked 1 0] ++ pressDelete ++
    [Intent.pointClicked 0 0, Intent.pointClicked 1 0]

/-- Create a CheckNode at (0,0) with VarNodes at (1,0) and (2,0) connected to
it, select the CheckNode and delete it. -/
def traceDeleteCheck : List Intent :=
  [Intent.pointClicked 0 0, Intent.pointClicked 1 0, Intent.pointClicked 0 0,
    Intent.pointClicked 2 0, Intent.pointClicked 0 0] ++ pressDelete

/-- Create a chain of five nodes (CheckNodes 0, 1, 2 at (0,0), (2,0), (4,0)),
delete CheckNode 1, create one more node, undo that creation. -/
def traceUndoToGap : List Intent :=
  [Intent.pointClicked 0 0, Intent.pointClicked 1 0, Intent.pointClicked 2 0,
    Intent.pointClicked 3 0, Intent.pointClicked 4 0, Intent.pointClicked 2 0] ++
    pressDelete ++ [Intent.pointClicked 5 0] ++ pressUndo

/-- A heap with one CheckNode and one VarNode that are connected. -/
def heapConnected : List Node :=
  [{ NodeType := NodeType.CheckNode, Index := 0, Connections := [(0, 1)], X := 0, Y := 0,
     Selected := false, Highlighted := false },
   { NodeType := NodeType.VarNode, Index := 0, Connections := [(0, 0)], X := 1, Y := 0,
     Selected := false, Highlighted := false }]

/-- A heap with one CheckNode and one VarNode that are not connected. -/
def heapUnconnected : List Node :=
  [{ NodeType := NodeType.CheckNode, Index := 0, Connections := [], X := 0, Y := 0,
     Selected := false, Highlighted := false },
   { NodeType := NodeType.VarNode, Index := 0, Connections := [], X := 1, Y := 0,
     Selected := false, Highlighted := false }]

/-- The canvas after a click on (0,0) and a click on (1,0): CheckNode 0 and
VarNode 0, connected, the VarNode selected. -/
def canvasTwoNodes : svgCanvas :=
  { heap := [
      { NodeType := NodeType.CheckNode, Index := 0, Connections := [(0, 1)], X := 0, Y := 0,
        Selected := false, Highlighted := false },
      { NodeType := NodeType.VarNode, Index := 0, Connections := [(0, 0)], X := 1, Y := 0,
        Selected := true, Highlighted := false }]
    keys := []
    history := [
      { Nodes := [{ Connections := [], Index := 0, X := 0, Y := 0, Type' := NodeType.CheckNode }] },
      { Nodes := [{ Connections := [0], Index := 0, X := 0, Y := 0, Type' := NodeType.CheckNode },
                  { Connections := [0], Index := 0, X := 1, Y := 0, Type' := NodeType.VarNode }] }]
    nodes := [0, 1]
    nodeMap := [((NodeType.CheckNode, 0), 0), ((NodeType.VarNode, 0), 1)]
    nodeTypeCounts := [(NodeType.CheckNode, 1), (NodeType.VarNode, 1)]
    posToNode := [((0, 0), 0), ((1, 0), 1)]
    selectedNode := some 1 }

/-- Every node of the node list whose selection flag is set is the recorded
selection. -/
def svgCanvas.selectionConsistent (sc : svgCanvas) : Bool :=
  sc.nodes.all (fun p =>
    match sc.heap[p]? with
    | some n => !n.Selected || decide (sc.selectedNode = some p)
    | none => true)

/-- Number of nodes of the node list whose selection flag is set. -/
def svgCanvas.selectedCount (sc : svgCanvas) : Nat :=
  (sc.liveNodes.filter (fun n => n.Selected)).length

/-- The cells of the live nodes, in the order of the node list. -/
def svgCanvas.liveCells (sc : svgCanvas) : List (Int × Int) :=
  sc.liveNodes.map (fun n => (n.X, n.Y))

/-- Type, Index, cell and connection keys of every live node. -/
def svgCanvas.liveSummary (sc : svgCanvas) : List (NodeType × Int × (Int × Int) × List Int) :=
  sc.liveNodes.map (fun n => (n.NodeType, n.Index, (n.X, n.Y), n.Connections.map Prod.fst))

/-- Create a chain of six nodes (VarNodes 0, 1, 2 at (1,0), (3,0), (5,0)),
delete VarNode 1, create one more node, undo that creation. -/
def traceUndoToVarGap : List Intent :=
  [Intent.pointClicked 0 0, Intent.pointClicked 1 0, Intent.pointClicked 2 0,
    Intent.pointClicked 3 0, Intent.pointClicked 4 0, Intent.pointClicked 5 0,
    Intent.pointClicked 3 0] ++ pressDelete ++ [Intent.pointClicked 6 0] ++ pressUndo

/-- The canvas right after OnMount: the empty graph with an empty history. -/
def canvasMounted : svgCanvas :=
  { heap := [], keys := [], history := [], nodes := [], nodeMap := [],
    nodeTypeCounts := [(NodeType.CheckNode, 0), (NodeType.VarNode, 0)], posToNode := [],
    selectedNode := none }

/-- The mounted canvas while the Ctrl key is held. -/
def canvasCtrlHeld : svgCanvas :=
  { canvasMounted with keys := [(Ctrl, true)] }

/-- The canvases obtained from the mounted canvas by node creations alone, with
a minted index (createNewNode) or a caller-supplied one (createNode), at any
cell; a creation on an occupied cell returns nil and is part of the sequence. -/
inductive Created : svgCanvas → Prop where
  | mount {sc : svgCanvas} : svgCanvas.OnMount = Res.ok sc → Created sc
  | minted {sc : svgCanvas} (t : NodeType) (x y : Int) :
      Created sc → Created (sc.createNewNode t x y).1
  | supplied {sc : svgCanvas} (t : NodeType) (index x y : Int) :
      Created sc → Created (sc.createNode t index x y).1

/-- Every node of the node list is allocated and is the occupant recorded for
its own cell. -/
def svgCanvas.nodesOccupyCells (sc : svgCanvas) : Prop :=
  ∀ p ∈ sc.nodes, ∃ n : Node, sc.heap[p]? = some n ∧
    mapGet? sc.posToNode (n.X, n.Y) = some p

/-- The Index values of the live nodes are Go ints, and within one type they
lie less than 2^63 apart, so that the subtraction of State does not wrap.
Indices minted by the editor are counter values, for which this holds. -/
def svgCanvas.indicesFit (sc : svgCanvas) : Prop :=
  (∀ n ∈ sc.liveNodes, -MaxInt - 1 ≤ n.Index ∧ n.Index ≤ MaxInt) ∧
  (∀ a ∈ sc.liveNodes, ∀ b ∈ sc.liveNodes, a.NodeType = b.NodeType → a.Index - b.Index ≤ MaxInt)

/-- The exported record of a node whose type has the smallest Index `delta`. -/
def normalizedRecord (checkDelta varDelta : Int) (n : Node) : nodeJson :=
  { Connections := n.Connections.map Prod.fst
    Index := n.Index - (if n.NodeType = NodeType.CheckNode then checkDelta else varDelta)
    Type' := n.NodeType
    X := n.X
    Y := n.Y }

/-- A payload is well formed when its records lie at pairwise distinct cells,
no two records of one type share an Index, and every index in the Connections
of a CheckNode record is the Index of a VarNode record. -/
def WellFormedPayload (recs : List nodeJson) : Prop :=
  (recs.map (fun r => (r.X, r.Y))).Nodup ∧
  (recs.map (fun r => (r.Type', r.Index))).Nodup ∧
  (∀ r ∈ recs, r.Type' = NodeType.CheckNode → ∀ c ∈ r.Connections,
    ∃ v ∈ recs, v.Type' = NodeType.VarNode ∧ v.Index = c)

/-- The node that createNode allocates for a record. -/
def nodeOfRecord (r : nodeJson) : Node :=
  { NodeType := r.Type', Index := r.Index, Connections := [], X := r.X, Y := r.Y,
    Selected := false, Highlighted := false }

/-- State of the first loop of SetState after the records `pre`, on top of the
heap `h0`: one node per record, allocated consecutively, listed in order,
recorded in the occupancy index and in the two index maps. -/
def CreateInv (h0 : List Node) (pre : List nodeJson) (sc : svgCanvas)
    (indexToVars indexToChecks : List (Int × Option Ptr)) : Prop :=
  sc.heap = h0 ++ pre.map nodeOfRecord ∧
  sc.nodes = List.range' h0.length pre.length ∧
  (∀ cell, (mapGet? sc.posToNode cell).isSome = true ↔ cell ∈ pre.map (fun r => (r.X, r.Y))) ∧
  sc.selectedNode = none ∧
  (∀ (j : Nat) (r : nodeJson), pre[j]? = some r → r.Type' = NodeType.VarNode →
    mapGet? indexToVars r.Index = some (some (h0.length + j))) ∧
  (∀ (j : Nat) (r : nodeJson), pre[j]? = some r → r.Type' = NodeType.CheckNode →
    mapGet? indexToChecks r.Index = some (some (h0.length + j)))

/-- State of the second loop of SetState: the heap `hw` holds, from position
`base` on, one node per record with the record's type, index and cell, and a
CheckNode holds the Index of a VarNode, and that VarNode the Index of the
CheckNode, exactly when `done` says that the edge from that check record to
that var index was wired. -/
def WireInv (base : Nat) (recs : List nodeJson) (done : Nat → Int → Prop)
    (hw : List Node) : Prop :=
  hw.length = base + recs.length ∧
  (∀ (i : Nat) (r : nodeJson), recs[i]? = some r →
    ∃ n : Node, hw[base + i]? = some n ∧ n.NodeType = r.Type' ∧ n.Index = r.Index ∧
      n.X = r.X ∧ n.Y = r.Y ∧ n.Selected = false) ∧
  (∀ (i j : Nat) (rc rv : nodeJson) (nc : Node), recs[i]? = some rc → recs[j]? = some rv →
    rc.Type' = NodeType.CheckNode → rv.Type' = NodeType.VarNode →
    hw[base + i]? = some nc →
    ((mapGet? nc.Connections rv.Index).isSome = true ↔ done i rv.Index)) ∧
  (∀ (i j : Nat) (rc rv : nodeJson) (nv : Node), recs[i]? = some rc → recs[j]? = some rv →
    rc.Type' = NodeType.CheckNode → rv.Type' = NodeType.VarNode →
    hw[base + j]? = some nv →
    ((mapGet? nv.Connections rc.Index).isSome = true ↔ done i rv.Index))

/-- The export of canvasTwoNodes, used as a payload: CheckNode 0 at (0,0) listing
VarNode 0, and VarNode 0 at (1,0). -/
def payloadTwoNodes : svgCanvasJson :=
  { Nodes := [
      { Connections := [0], Index := 0, X := 0, Y := 0, Type' := NodeType.CheckNode },
      { Connections := [0], Index := 0, X := 1, Y := 0, Type' := NodeType.VarNode }] }

/-- The canvas after a click on (0,0): CheckNode 0, selected. -/
def canvasOneNode : svgCanvas :=
  { heap := [
      { NodeType := NodeType.CheckNode, Index := 0, Connections := [], X := 0, Y := 0,
        Selected := true, Highlighted := false }]
    keys := []
    history := [
      { Nodes := [{ Connections := [], Index := 0, X := 0, Y := 0, Type' := NodeType.CheckNode }] }]
    nodes := [0]
    nodeMap := [((NodeType.CheckNode, 0), 0)]
    nodeTypeCounts := [(NodeType.CheckNode, 1), (NodeType.VarNode, 0)]
    posToNode := [((0, 0), 0)]
    selectedNode := some 0 }

/-- A canvas whose two CheckNodes carry the largest and the smallest Go int as
Index. -/
def canvasFarIndices : svgCanvas :=
  { heap := [
      { NodeType := NodeType.CheckNode, Index := 9223372036854775807, Connections := [],
        X := 0, Y := 0, Selected := false, Highlighted := false },
      { NodeType := NodeType.CheckNode, Index := -9223372036854775808, Connections := [],
        X := 1, Y := 0, Selected := false, Highlighted := false }]
    keys := []
    history := []
    nodes := [0, 1]
    nodeMap := [((NodeType.CheckNode, 9223372036854775807), 0),
      ((NodeType.CheckNode, -9223372036854775808), 1)]
    nodeTypeCounts := [(NodeType.CheckNode, 0), (NodeType.VarNode, 0)]
    posToNode := [((0, 0), 0), ((1, 0), 1)]
    selectedNode := none }

/-- A canvas whose indices start above zero: CheckNodes 2 and 5, VarNode 3, the
CheckNode 5 connected to the VarNode. -/
def canvasGap : svgCanvas :=
  { heap := [
      { NodeType := NodeType.CheckNode, Index := 2, Connections := [], X := 0, Y := 0,
        Selected := false, Highlighted := false },
      { NodeType := NodeType.CheckNode, Index := 5, Connections := [(3, 2)], X := 1, Y := 0,
        Selected := false, Highlighted := false },
      { NodeType := NodeType.VarNode, Index := 3, Connections := [(5, 1)], X := 2, Y := 0,
        Selected := false, Highlighted := false }]
    keys := []
    history := []
    nodes := [0, 1, 2]
    nodeMap := [((NodeType.CheckNode, 2), 0), ((NodeType.CheckNode, 5), 1),
      ((NodeType.VarNode, 3), 2)]
    nodeTypeCounts := [(NodeType.CheckNode, 6), (NodeType.VarNode, 4)]
    posToNode := [((0, 0), 0), ((1, 0), 1), ((2, 0), 2)]
    selectedNode := none }

/-! # Verification -/


/-! ## Facts about the Go primitives -/

theorem mapGet?_mapSet {κ α : Type} [DecidableEq κ] (m : List (κ × α)) (k k' : κ) (v : α) :
    mapGet? (mapSet m k v) k' = if k' = k then some v else mapGet? m k' := by
  induction m with
  | nil =>
    by_cases h : k = k'
    · subst h; simp [mapSet, mapGet?]
    · have h' : ¬ k' = k := fun e => h e.symm
      simp [mapSet, mapGet?, h, h']
  | cons e m ih =>
    obtain ⟨k0, v0⟩ := e
    by_cases h0 : k0 = k
    · subst h0
      by_cases h1 : k0 = k'
      · subst h1; simp [mapSet, mapGet?]
      · have h1' : ¬ k' = k0 := fun e => h1 e.symm
        simp [mapSet, mapGet?, h1, h1']
    · by_cases h1 : k0 = k'
      · subst h1
        simp [mapSet, mapGet?, h0]
      · simp [mapSet, mapGet?, h0, h1, ih]

theorem mapGet?_mapDelete {κ α : Type} [DecidableEq κ] (m : List (κ × α)) (k k' : κ) :
    mapGet? (mapDelete m k) k' = if k' = k then none else mapGet? m k' := by
  induction m with
  | nil => simp [mapDelete, mapGet?]
  | cons e m ih =>
    obtain ⟨k0, v0⟩ := e
    by_cases h0 : k0 = k
    · subst h0
      by_cases h1 : k0 = k'
      · subst h1; simp [mapDelete, mapGet?, ih]
      · have h1' : ¬ k' = k0 := fun e => h1 e.symm
        simp [mapDelete, mapGet?, h1, h1', ih]
    · by_cases h1 : k0 = k'
      · subst h1
        simp [mapDelete, mapGet?, h0]
      · simp [mapDelete, mapGet?, h0, h1, ih]

theorem mapDelete_eq_self {κ α : Type} [DecidableEq κ] (m : List (κ × α)) (k : κ)
    (h : mapGet? m k = none) : mapDelete m k = m := by
  induction m with
  | nil => rfl
  | cons e m ih =>
    obtain ⟨k0, v0⟩ := e
    by_cases h0 : k0 = k
    · simp [mapGet?, h0] at h
    · simp [mapGet?, h0] at h
      simp [mapDelete, h0, ih h]

theorem mem_mapSet {κ α : Type} [DecidableEq κ] (m : List (κ × α)) (k : κ) (v : α)
    (e : κ × α) (h : e ∈ mapSet m k v) : e = (k, v) ∨ e ∈ m := by
  induction m with
  | nil => simp [mapSet] at h; exact Or.inl h
  | cons e0 m ih =>
    obtain ⟨k0, v0⟩ := e0
    by_cases h0 : k0 = k
    · simp [mapSet, h0] at h
      rcases h with h | h
      · exact Or.inl h
      · exact Or.inr (List.mem_cons_of_mem _ h)
    · simp [mapSet, h0] at h
      rcases h with h | h
      · exact Or.inr (by rw [h]; exact List.mem_cons_self _ _)
      · rcases ih h with h | h
        · exact Or.inl h
        · exact Or.inr (List.mem_cons_of_mem _ h)

theorem mem_mapDelete {κ α : Type} [DecidableEq κ] (m : List (κ × α)) (k : κ)
    (e : κ × α) (h : e ∈ mapDelete m k) : e ∈ m := by
  induction m with
  | nil => simp [mapDelete] at h
  | cons e0 m ih =>
    obtain ⟨k0, v0⟩ := e0
    by_cases h0 : k0 = k
    · simp [mapDelete, h0] at h
      exact List.mem_cons_of_mem _ (ih (by simpa [h0] using h))
    · simp [mapDelete, h0] at h
      rcases h with h | h
      · rw [h]; exact List.mem_cons_self _ _
      · exact List.mem_cons_of_mem _ (ih h)

theorem length_heapModify (h : List Node) (p : Ptr) (f : Node → Node) :
    (heapModify h p f).length = h.length := by
  unfold heapModify
  cases h[p]? <;> simp

theorem getElem?_heapModify (h : List Node) (p q : Ptr) (f : Node → Node) :
    (heapModify h p f)[q]? = if q = p then (h[p]?).map f else h[q]? := by
  unfold heapModify
  cases hp : h[p]? with
  | none =>
    by_cases hq : q = p
    · subst hq; simp [hp]
    · simp [hq]
  | some n =>
    by_cases hq : q = p
    · subst hq
      have : q < h.length := by
        rcases Nat.lt_or_ge q h.length with h1 | h1
        · exact h1
        · rw [List.getElem?_eq_none h1] at hp; cases hp
      simp [List.getElem?_set, this]
    · have hq' : ¬ p = q := fun e => hq e.symm
      simp [List.getElem?_set, hq, hq']

theorem heapModify_eq_self (h : List Node) (p : Ptr) (f : Node → Node)
    (hf : ∀ n, h[p]? = some n → f n = n) : heapModify h p f = h := by
  apply List.ext_getElem?
  intro q
  rw [getElem?_heapModify]
  by_cases hq : q = p
  · subst hq
    cases hp : h[q]? with
    | none => simp
    | some n => simp [hf n hp]
  · simp [hq]

/-! ## The connection manager -/



theorem connectFromCheck_new (h : List Node) (c v : Ptr) (nc nv : Node)
    (hc : h[c]? = some nc) (hv : h[v]? = some nv) (hne : c ≠ v)
    (hnew : mapGet? nc.Connections nv.Index = none) :
    ∃ h1, Node.connectFromCheck h c nc v nv = (Res.ok true, h1) ∧ h1.length = h.length ∧
      h1[c]? = some { nc with Connections := mapSet nc.Connections nv.Index v } ∧
      h1[v]? = some { nv with Connections := mapSet nv.Connections nc.Index c } ∧
      ∀ r, r ≠ c → r ≠ v → h1[r]? = h[r]? := by
  have hne' : ¬ v = c := fun e => hne e.symm
  refine ⟨heapModify (heapModify h c
      (fun a => { a with Connections := mapSet a.Connections nv.Index v })) v
      (fun b => { b with Connections := mapSet b.Connections nc.Index c }), ?_, ?_, ?_, ?_, ?_⟩
  · simp [Node.connectFromCheck, hnew]
  · simp [length_heapModify]
  · simp [getElem?_heapModify, hne, hc]
  · simp [getElem?_heapModify, hne', hv]
  · intro r hrc hrv
    simp [getElem?_heapModify, hrc, hrv]

theorem connectFromCheck_old (h : List Node) (c v : Ptr) (nc nv : Node)
    (hold : (mapGet? nc.Connections nv.Index).isSome = true) :
    Node.connectFromCheck h c nc v nv = (Res.ok false, h) := by
  unfold Node.connectFromCheck
  cases hg : mapGet? nc.Connections nv.Index with
  | none => simp [hg] at hold
  | some x => rfl

theorem ConnectTo_eq_connectFromCheck (h : List Node) (c v : Ptr) (nc nv : Node)
    (hc : h[c]? = some nc) (hv : h[v]? = some nv)
    (hct : nc.NodeType = NodeType.CheckNode) (hvt : nv.NodeType = NodeType.VarNode) :
    Node.ConnectTo h (some c) (some v) = Node.connectFromCheck h c nc v nv ∧
    Node.ConnectTo h (some v) (some c) = Node.connectFromCheck h c nc v nv := by
  constructor <;> simp [Node.ConnectTo, hc, hv, hct, hvt]

theorem ConnectTo_recorded (h : List Node) (c v : Ptr) (nc nv : Node)
    (hc : h[c]? = some nc) (hv : h[v]? = some nv)
    (hct : nc.NodeType = NodeType.CheckNode) (hvt : nv.NodeType = NodeType.VarNode)
    (hold : (mapGet? nc.Connections nv.Index).isSome = true) :
    Node.ConnectTo h (some c) (some v) = (Res.ok false, h) ∧
    Node.ConnectTo h (some v) (some c) = (Res.ok false, h) := by
  obtain ⟨e1, e2⟩ := ConnectTo_eq_connectFromCheck h c v nc nv hc hv hct hvt
  exact ⟨e1.trans (connectFromCheck_old h c v nc nv hold),
    e2.trans (connectFromCheck_old h c v nc nv hold)⟩

/-- C6 (amended).  For a present CheckNode `c` and a present VarNode `v`, in either
argument order: when the connection set of `c` does not hold the Index of `v`,
ConnectTo returns true, afterwards the set of `c` maps the Index of `v` to `v`
and the set of `v` maps the Index of `c` to `c`, every other entry of both sets,
every other field and every other node being unchanged, and a second identical
call returns false and changes nothing; when the set of `c` already holds the
Index of `v`, or when the argument is nil (whatever the receiver), ConnectTo
returns false and the heap is unchanged. -/
theorem ConnectTo_contract (h : List Node) (c v : Ptr) (nc nv : Node)
    (hc : h[c]? = some nc) (hv : h[v]? = some nv)
    (hct : nc.NodeType = NodeType.CheckNode) (hvt : nv.NodeType = NodeType.VarNode) :
    (mapGet? nc.Connections nv.Index = none →
      ∃ h1 cc cv, Node.ConnectTo h (some c) (some v) = (Res.ok true, h1) ∧
        Node.ConnectTo h (some v) (some c) = (Res.ok true, h1) ∧
        h1.length = h.length ∧
        h1[c]? = some { nc with Connections := cc } ∧
        h1[v]? = some { nv with Connections := cv } ∧
        (∀ k, mapGet? cc k = if k = nv.Index then some v else mapGet? nc.Connections k) ∧
        (∀ k, mapGet? cv k = if k = nc.Index then some c else mapGet? nv.Connections k) ∧
        (∀ r, r ≠ c → r ≠ v → h1[r]? = h[r]?) ∧
        Node.ConnectTo h1 (some c) (some v) = (Res.ok false, h1) ∧
        Node.ConnectTo h1 (some v) (some c) = (Res.ok false, h1)) ∧
    ((mapGet? nc.Connections nv.Index).isSome = true →
      Node.ConnectTo h (some c) (some v) = (Res.ok false, h) ∧
      Node.ConnectTo h (some v) (some c) = (Res.ok false, h)) ∧
    (∀ n, Node.ConnectTo h n none = (Res.ok false, h)) := by
  have hne : c ≠ v := by
    intro e
    subst e
    rw [hc] at hv
    cases hv
    rw [hct] at hvt
    cases hvt
  obtain ⟨e1, e2⟩ := ConnectTo_eq_connectFromCheck h c v nc nv hc hv hct hvt
  refine ⟨?_, ConnectTo_recorded h c v nc nv hc hv hct hvt, fun n => rfl⟩
  intro hnew
  obtain ⟨h1, q1, q2, q3, q4, q5⟩ := connectFromCheck_new h c v nc nv hc hv hne hnew
  have again := ConnectTo_recorded h1 c v _ _ q3 q4 hct hvt
    (by simp [mapGet?_mapSet])
  exact ⟨h1, _, _, e1.trans q1, e2.trans q1, q2, q3, q4,
    fun k => mapGet?_mapSet _ _ _ _, fun k => mapGet?_mapSet _ _ _ _, q5, again.1, again.2⟩

/-- C8 (amended).  For a present CheckNode `c` and a present VarNode `v`, in either
argument order, DeleteConnectionTo returns normally; afterwards the connection
set of `c` does not hold the Index of `v`, every other entry of the set of `c`
is unchanged, every entry of the set of `v` other than the one for the Index of
`c` is unchanged, and so are all other fields and all other nodes; when the set
of `c` did not hold the Index of `v`, or when the argument is nil (whatever the
receiver), the heap is unchanged. -/
theorem DeleteConnectionTo_contract (h : List Node) (c v : Ptr) (nc nv : Node)
    (hc : h[c]? = some nc) (hv : h[v]? = some nv)
    (hct : nc.NodeType = NodeType.CheckNode) (hvt : nv.NodeType = NodeType.VarNode) :
    (∃ h1 cc cv, Node.DeleteConnectionTo h (some c) (some v) = (Res.ok (), h1) ∧
        Node.DeleteConnectionTo h (some v) (some c) = (Res.ok (), h1) ∧
        h1.length = h.length ∧
        h1[c]? = some { nc with Connections := cc } ∧
        h1[v]? = some { nv with Connections := cv } ∧
        (∀ k, mapGet? cc k = if k = nv.Index then none else mapGet? nc.Connections k) ∧
        (∀ k, k ≠ nc.Index → mapGet? cv k = mapGet? nv.Connections k) ∧
        (∀ r, r ≠ c → r ≠ v → h1[r]? = h[r]?) ∧
        (mapGet? nc.Connections nv.Index = none → h1 = h)) ∧
    (∀ n, Node.DeleteConnectionTo h n none = (Res.ok (), h)) := by
  have hne : c ≠ v := by
    intro e
    subst e
    rw [hc] at hv
    cases hv
    rw [hct] at hvt
    cases hvt
  have hne' : ¬ v = c := fun e => hne e.symm
  refine ⟨⟨heapModify h c (fun a => { a with Connections := mapDelete a.Connections nv.Index }),
    mapDelete nc.Connections nv.Index, nv.Connections, ?_, ?_, ?_, ?_, ?_, ?_, ?_, ?_, ?_⟩, ?_⟩
  · simp [Node.DeleteConnectionTo, hc, hv, hct]
  · simp [Node.DeleteConnectionTo, hc, hv, hct, hvt]
  · exact length_heapModify _ _ _
  · simp [getElem?_heapModify, hc]
  · simp [getElem?_heapModify, hne', hv]
  · intro k; exact mapGet?_mapDelete _ _ _
  · intro k _; rfl
  · intro r hrc _
    simp [getElem?_heapModify, hrc]
  · intro hnone
    apply heapModify_eq_self
    intro n hn
    rw [hc] at hn
    cases hn
    rw [mapDelete_eq_self _ _ hnone]
  · intro n
    rfl

/-! ## Edges join nodes of different types -/


theorem Bipartite_heapModify (h : List Node) (p : Ptr) (f : Node → Node) (hb : Bipartite h)
    (hf : ∀ n, h[p]? = some n → (f n).NodeType = n.NodeType ∧ (f n).Index = n.Index ∧
      ∀ k q, (k, q) ∈ (f n).Connections → (k, q) ∈ n.Connections ∨
        ∃ m, h[q]? = some m ∧ m.NodeType ≠ n.NodeType ∧ m.Index = k) :
    Bipartite (heapModify h p f) := by
  have key : ∀ (q : Ptr) (m : Node), h[q]? = some m →
      ∃ m' : Node, (heapModify h p f)[q]? = some m' ∧ m'.NodeType = m.NodeType ∧ m'.Index = m.Index := by
    intro q m hq
    rw [getElem?_heapModify]
    by_cases e : q = p
    · subst e
      obtain ⟨t1, t2, _⟩ := hf m hq
      exact ⟨f m, by simp [hq], t1, t2⟩
    · exact ⟨m, by simp [e, hq], rfl, rfl⟩
  intro p' n' hp' k q hkq
  rw [getElem?_heapModify] at hp'
  have old : ∀ n0 : Node, h[p']? = some n0 → n0.NodeType = n'.NodeType →
      ((k, q) ∈ n0.Connections ∨ ∃ m, h[q]? = some m ∧ m.NodeType ≠ n0.NodeType ∧ m.Index = k) →
      ∃ m : Node, (heapModify h p f)[q]? = some m ∧ m.NodeType ≠ n'.NodeType ∧ m.Index = k := by
    intro n0 hn0 ht hcase
    have : ∃ m : Node, h[q]? = some m ∧ m.NodeType ≠ n0.NodeType ∧ m.Index = k := by
      rcases hcase with hc | hc
      · exact hb p' n0 hn0 k q hc
      · exact hc
    obtain ⟨m, hm, hmt, hmi⟩ := this
    obtain ⟨m', hm', t1, t2⟩ := key q m hm
    exact ⟨m', hm', by rw [t1, ← ht]; exact hmt, by rw [t2]; exact hmi⟩
  by_cases e : p' = p
  · subst e
    simp only [if_true] at hp'
    cases hn0 : h[p']? with
    | none => simp [hn0] at hp'
    | some n0 =>
      simp [hn0] at hp'
      subst hp'
      obtain ⟨t1, _, t3⟩ := hf n0 hn0
      exact old n0 hn0 t1.symm (t3 k q hkq)
  · simp only [e, if_false] at hp'
    exact old n' hp' rfl (Or.inl hkq)

theorem Bipartite_append (h : List Node) (n : Node) (hb : Bipartite h)
    (hn : n.Connections = []) : Bipartite (h ++ [n]) := by
  intro p n' hp k q hkq
  show ∃ m : Node, (h ++ [n])[q]? = some m ∧ m.NodeType ≠ n'.NodeType ∧ m.Index = k
  by_cases hlt : p < h.length
  · rw [List.getElem?_append_left hlt] at hp
    obtain ⟨m, hm, r⟩ := hb p n' hp k q hkq
    have hq : q < h.length := by
      rcases Nat.lt_or_ge q h.length with h1 | h1
      · exact h1
      · rw [List.getElem?_eq_none h1] at hm; cases hm
    exact ⟨m, by rw [List.getElem?_append_left hq]; exact hm, r⟩
  · have hge : h.length ≤ p := Nat.le_of_not_lt hlt
    rw [List.getElem?_append_right hge] at hp
    cases hd : p - h.length with
    | zero =>
      rw [hd] at hp
      simp at hp
      subst hp
      rw [hn] at hkq
      cases hkq
    | succ d =>
      rw [hd] at hp
      simp at hp

theorem Bipartite_setFlags (h : List Node) (p : Ptr) (f : Node → Node) (hb : Bipartite h)
    (hf : ∀ n, (f n).NodeType = n.NodeType ∧ (f n).Index = n.Index ∧
      (f n).Connections = n.Connections) : Bipartite (heapModify h p f) := by
  apply Bipartite_heapModify h p f hb
  intro n _
  obtain ⟨t1, t2, t3⟩ := hf n
  exact ⟨t1, t2, fun k q hkq => Or.inl (by rw [← t3]; exact hkq)⟩

theorem Bipartite_connectFromCheck (h : List Node) (c v : Ptr) (nc nv : Node)
    (hb : Bipartite h) (hc : h[c]? = some nc) (hv : h[v]? = some nv)
    (ht : nc.NodeType ≠ nv.NodeType) : Bipartite (Node.connectFromCheck h c nc v nv).2 := by
  have hne : c ≠ v := by
    intro e; subst e; rw [hc] at hv; cases hv; exact ht rfl
  unfold Node.connectFromCheck
  cases mapGet? nc.Connections nv.Index with
  | some x => exact hb
  | none =>
    simp only
    apply Bipartite_heapModify
    · apply Bipartite_heapModify h c _ hb
      intro n hn
      rw [hc] at hn; cases hn
      refine ⟨rfl, rfl, ?_⟩
      intro k q hkq
      rcases mem_mapSet _ _ _ _ hkq with e | e
      · cases e
        exact Or.inr ⟨nv, hv, fun e => ht e.symm, rfl⟩
      · exact Or.inl e
    · intro n hn
      have hne' : ¬ v = c := fun e => hne e.symm
      simp [getElem?_heapModify, hne', hv] at hn
      subst hn
      refine ⟨rfl, rfl, ?_⟩
      intro k q hkq
      rcases mem_mapSet _ _ _ _ hkq with e | e
      · cases e
        refine Or.inr ⟨{ nc with Connections := mapSet nc.Connections nv.Index v }, ?_, ?_, ?_⟩
        · simp [getElem?_heapModify, hc]
        · exact ht
        · rfl
      · exact Or.inl e

theorem Bipartite_ConnectTo (h : List Node) (n node : Option Ptr) (hb : Bipartite h) :
    Bipartite (Node.ConnectTo h n node).2 := by
  unfold Node.ConnectTo
  cases node with
  | none => exact hb
  | some q =>
    cases n with
    | none => exact hb
    | some p =>
      simp only
      cases hp : h[p]? with
      | none => exact hb
      | some a =>
        cases hq : h[q]? with
        | none => exact hb
        | some b =>
          simp only
          by_cases e : a.NodeType = b.NodeType
          · rw [if_pos e]; exact hb
          · by_cases e2 : a.NodeType = NodeType.CheckNode
            · rw [if_neg e, if_neg (fun x => x e2)]
              exact Bipartite_connectFromCheck h p q a b hb hp hq e
            · rw [if_neg e, if_pos e2]
              exact Bipartite_connectFromCheck h q p b a hb hq hp (fun x => e x.symm)

theorem Bipartite_DeleteConnectionTo (h : List Node) (n node : Option Ptr) (hb : Bipartite h) :
    Bipartite (Node.DeleteConnectionTo h n node).2 := by
  have del : ∀ (p : Ptr) (i : Int), Bipartite (heapModify h p
      (fun c => { c with Connections := mapDelete c.Connections i })) := by
    intro p i
    apply Bipartite_heapModify h p _ hb
    intro m _
    exact ⟨rfl, rfl, fun k q hkq => Or.inl (mem_mapDelete _ _ _ hkq)⟩
  unfold Node.DeleteConnectionTo
  cases node with
  | none => exact hb
  | some q =>
    cases n with
    | none => exact hb
    | some p =>
      simp only
      cases hp : h[p]? with
      | none => exact hb
      | some a =>
        cases hq : h[q]? with
        | none => exact hb
        | some b =>
          simp only
          split
          · exact del _ _
          · split
            · exact del _ _
            · exact hb


theorem Bipartite_createNode (sc : svgCanvas) (t : NodeType) (i x y : Int)
    (hb : Bipartite sc.heap) : Bipartite (sc.createNode t i x y).1.heap := by
  unfold svgCanvas.createNode
  cases mapGet? sc.posToNode (x, y) with
  | some _ => exact hb
  | none => exact Bipartite_append _ _ hb rfl

theorem Bipartite_select (sc sc1 : svgCanvas) (n : Ptr) (hb : Bipartite sc.heap)
    (h : Node.select sc n = Res.ok sc1) : Bipartite sc1.heap := by
  unfold Node.select at h
  cases hn : sc.heap[n]? with
  | none => simp [hn] at h
  | some a =>
    simp [hn] at h
    subst h
    exact Bipartite_setFlags _ _ _ hb (fun _ => ⟨rfl, rfl, rfl⟩)

theorem Bipartite_selectAndRecord (sc sc1 : svgCanvas) (n : Option Ptr) (changed : Bool)
    (hb : Bipartite sc.heap) (h : sc.selectAndRecord n changed = Res.ok sc1) :
    Bipartite sc1.heap := by
  unfold svgCanvas.selectAndRecord at h
  cases n with
  | none => simp at h
  | some p =>
    cases hn : sc.heap[p]? with
    | none => simp [hn] at h
    | some a =>
      simp [hn] at h
      subst h
      cases changed <;>
        exact Bipartite_setFlags _ _ _ hb (fun _ => ⟨rfl, rfl, rfl⟩)

theorem Bipartite_createOnFreeCell (sc : svgCanvas) (x y : Int) (hb : Bipartite sc.heap) :
    Bipartite (sc.createOnFreeCell x y).1.heap := by
  unfold svgCanvas.createOnFreeCell svgCanvas.createNewNode
  split
  · split
    · split <;> exact Bipartite_createNode _ _ _ _ _ hb
    · exact Bipartite_createNode _ _ _ _ _ hb
  · exact hb

theorem Bipartite_clickOccupant (sc sc1 : svgCanvas) (n : Option Ptr) (changed : Bool)
    (hb : Bipartite sc.heap) (h : sc.clickOccupant n changed = Res.ok sc1) :
    Bipartite sc1.heap := by
  unfold svgCanvas.clickOccupant at h
  split at h
  · cases h; exact hb
  · split at h
    · exact Bipartite_selectAndRecord _ _ _ _ hb h
    · rename_i s hs
      have hb1 := Bipartite_setFlags sc.heap s
        (fun a => { a with Selected := false }) hb (fun _ => ⟨rfl, rfl, rfl⟩)
      simp only at h
      split at h
      · split at h
        · split at h
          · rename_i heq
            have hb2 := Bipartite_ConnectTo _ (some s) n hb1
            rw [heq] at hb2
            exact Bipartite_selectAndRecord _ _ _ _ hb2 h
          · cases h
        · exact Bipartite_selectAndRecord _ _ _ _ hb1 h
      · cases h

theorem Bipartite_OnClick (sc sc1 : svgCanvas) (x y : Int)
    (hb : Bipartite sc.heap) (h : sc.OnClick x y = Res.ok sc1) : Bipartite sc1.heap :=
  Bipartite_clickOccupant _ _ _ _ (Bipartite_createOnFreeCell sc x y hb) h

theorem Bipartite_NodeOnClick (sc sc1 : svgCanvas) (n : Ptr)
    (hb : Bipartite sc.heap) (h : Node.OnClick sc n = Res.ok sc1) : Bipartite sc1.heap := by
  unfold Node.OnClick at h
  split at h
  · cases h; exact hb
  · split at h
    · exact Bipartite_select _ _ _ hb h
    · rename_i s hs
      have hb1 := Bipartite_setFlags sc.heap s
        (fun a => { a with Selected := false, Highlighted := false }) hb
        (fun _ => ⟨rfl, rfl, rfl⟩)
      simp only at h
      split at h
      · split at h
        · have hb2 := Bipartite_ConnectTo _ (some s) (some n) hb1
          split at h
          · rename_i heq
            rw [heq] at hb2
            exact Bipartite_select _ _ _ hb2 h
          · rename_i heq
            rw [heq] at hb2
            exact Bipartite_select _ _ _ hb2 h
          · cases h
        · exact Bipartite_select _ _ _ hb1 h
      · cases h


theorem Bipartite_setStateCreate (recs : List nodeJson) :
    ∀ (sc : svgCanvas) (vars checks : List (Int × Option Ptr)), Bipartite sc.heap →
      Bipartite (setStateCreate sc recs vars checks).1.heap := by
  induction recs with
  | nil => intro sc vars checks hb; exact hb
  | cons node rest ih =>
    intro sc vars checks hb
    unfold setStateCreate
    simp only
    split
    · exact ih _ _ _ (Bipartite_createNode _ _ _ _ _ hb)
    · exact ih _ _ _ (Bipartite_createNode _ _ _ _ _ hb)

theorem Bipartite_setStateConnect (vars : List (Int × Option Ptr)) (n : Option Ptr)
    (cs : List Int) :
    ∀ h : List Node, Bipartite h → Bipartite (setStateConnect vars n h cs).2 := by
  induction cs with
  | nil => intro h hb; exact hb
  | cons c cs ih =>
    intro h hb
    unfold setStateConnect
    have hb1 := Bipartite_ConnectTo h n ((mapGet? vars c).join) hb
    split
    · rename_i heq
      rw [heq] at hb1
      exact ih _ hb1
    · rename_i heq
      rw [heq] at hb1
      exact hb1

theorem Bipartite_setStateWire (vars checks : List (Int × Option Ptr))
    (recs : List nodeJson) :
    ∀ h : List Node, Bipartite h → Bipartite (setStateWire vars checks h recs).2 := by
  induction recs with
  | nil => intro h hb; exact hb
  | cons node rest ih =>
    intro h hb
    unfold setStateWire
    split
    · exact ih _ hb
    · have hb1 := Bipartite_setStateConnect vars ((mapGet? checks node.Index).join)
        node.Connections h hb
      split
      · rename_i heq
        rw [heq] at hb1
        exact ih _ hb1
      · rename_i heq
        rw [heq] at hb1
        exact hb1

theorem Bipartite_SetState (sc sc1 : svgCanvas) (state : svgCanvasJson)
    (hb : Bipartite sc.heap) (h : sc.SetState state = Res.ok sc1) : Bipartite sc1.heap := by
  unfold svgCanvas.SetState at h
  simp only at h
  split at h
  · rename_i u h1 heq
    cases h
    have e := congrArg Prod.snd heq
    simp only at e
    show Bipartite h1
    rw [← e]
    apply Bipartite_setStateWire
    apply Bipartite_setStateCreate
    exact hb
  · cases h

theorem Bipartite_onEscape (sc sc1 : svgCanvas) (hb : Bipartite sc.heap)
    (h : sc.onEscape = Res.ok sc1) : Bipartite sc1.heap := by
  unfold svgCanvas.onEscape at h
  split at h
  · cases h
  · split at h
    · cases h
    · cases h
      exact Bipartite_setFlags _ _ _ hb (fun _ => ⟨rfl, rfl, rfl⟩)

theorem Bipartite_onUndo (sc sc1 : svgCanvas) (hb : Bipartite sc.heap)
    (h : sc.onUndo = Res.ok sc1) : Bipartite sc1.heap := by
  unfold svgCanvas.onUndo at h
  split at h
  · cases h; exact hb
  · simp only at h
    split at h
    · cases h
    · refine Bipartite_SetState _ _ _ ?_ h
      exact hb

theorem Bipartite_deleteConnections (node : Ptr) (es : List (Int × Ptr)) :
    ∀ h : List Node, Bipartite h → Bipartite (deleteConnections node h es).2 := by
  induction es with
  | nil => intro h hb; exact hb
  | cons e es ih =>
    intro h hb
    obtain ⟨k, v⟩ := e
    unfold deleteConnections
    split
    · exact ih _ hb
    · rename_i n hn
      have hb1 := Bipartite_DeleteConnectionTo h (some node) (some n) hb
      split
      · rename_i heq
        rw [heq] at hb1
        exact ih _ hb1
      · rename_i heq
        rw [heq] at hb1
        exact hb1

theorem heap_DeleteNode (sc sc1 : svgCanvas) (n : Option Ptr)
    (h : sc.DeleteNode n = Res.ok sc1) : sc1.heap = sc.heap := by
  unfold svgCanvas.DeleteNode at h
  split at h
  · cases h
  · split at h
    · cases h
    · split at h
      · cases h; rfl
      · cases h

theorem Bipartite_onDelete (sc sc1 : svgCanvas) (hb : Bipartite sc.heap)
    (h : sc.onDelete = Res.ok sc1) : Bipartite sc1.heap := by
  unfold svgCanvas.onDelete at h
  simp only at h
  split at h
  · cases h
  · rename_i p nd hp
    have hb1 := Bipartite_deleteConnections p nd.Connections sc.heap hb
    split at h
    · cases h
    · rename_i heq
      rw [heq] at hb1
      split at h
      · cases h
      · rename_i sc2 hsc2
        cases h
        have := heap_DeleteNode _ _ _ hsc2
        show Bipartite sc2.heap
        rw [this]
        exact hb1

theorem Bipartite_OnKeyDown (sc sc1 : svgCanvas) (k : Int) (hb : Bipartite sc.heap)
    (h : sc.OnKeyDown k = Res.ok sc1) : Bipartite sc1.heap := by
  unfold svgCanvas.OnKeyDown at h
  split at h
  · cases h; exact hb
  · simp only at h
    split at h
    · exact Bipartite_onEscape _ _ (by exact hb) h
    · split at h
      · exact Bipartite_onUndo _ _ (by exact hb) h
      · split at h
        · exact Bipartite_onDelete _ _ (by exact hb) h
        · cases h; exact hb

theorem heap_OnKeyUp (sc : svgCanvas) (k : Int) : (sc.OnKeyUp k).heap = sc.heap := by
  unfold svgCanvas.OnKeyUp
  split <;> rfl

theorem Bipartite_step (sc sc1 : svgCanvas) (i : Intent) (hb : Bipartite sc.heap)
    (h : step sc i = Res.ok sc1) : Bipartite sc1.heap := by
  unfold step at h
  split at h
  · cases i with
    | pointClicked x y => exact Bipartite_OnClick _ _ _ _ hb h
    | nodeClicked n => exact Bipartite_NodeOnClick _ _ _ hb h
    | hoverEnter n =>
      cases h
      exact Bipartite_setFlags _ _ _ hb (fun _ => ⟨rfl, rfl, rfl⟩)
    | hoverLeave n =>
      cases h
      exact Bipartite_setFlags _ _ _ hb (fun _ => ⟨rfl, rfl, rfl⟩)
    | keyDown k => exact Bipartite_OnKeyDown _ _ _ hb h
    | keyUp k =>
      cases h
      show Bipartite (sc.OnKeyUp k).heap
      rw [heap_OnKeyUp]
      exact hb
  · cases h; exact hb

theorem Bipartite_nil : Bipartite [] := by
  intro p n hp
  simp at hp

theorem Bipartite_of_Reachable (sc : svgCanvas) (hr : Reachable sc) : Bipartite sc.heap := by
  induction hr with
  | mount h => exact Bipartite_SetState _ _ _ Bipartite_nil h
  | step i _ h ih => exact Bipartite_step _ _ i ih h


/-! ## Reachable states -/

theorem Reachable_run (t : List Intent) :
    ∀ sc sc1 : svgCanvas, Reachable sc → run (Res.ok sc) t = Res.ok sc1 → Reachable sc1 := by
  induction t with
  | nil => intro sc sc1 hr h; cases h; exact hr
  | cons i rest ih =>
    intro sc sc1 hr h
    unfold run at h
    cases hs : step sc i with
    | ok sc2 =>
      rw [hs] at h
      exact ih sc2 sc1 (Reachable.step i hr hs) h
    | panic e =>
      rw [hs] at h
      cases rest <;> simp [run] at h

theorem Reachable_run_OnMount (t : List Intent) (sc : svgCanvas)
    (h : run svgCanvas.OnMount t = Res.ok sc) : Reachable sc := by
  cases hm : svgCanvas.OnMount with
  | ok sc0 =>
    rw [hm] at h
    exact Reachable_run t sc0 sc (Reachable.mount hm) h
  | panic e =>
    rw [hm] at h
    cases t <;> simp [run] at h

/-! ## Interaction: Undo and Delete at the boundary -/

theorem onUndo_of_single_entry (sc : svgCanvas) (h : sc.history.length = 1) :
    sc.onUndo = Res.panic Panic.indexOutOfRange := by
  unfold svgCanvas.onUndo
  match hh : sc.history, h with
  | [e], _ => simp [List.dropLast]

theorem onDelete_of_no_selection (sc : svgCanvas) (h : sc.selectedNode = none) :
    sc.onDelete = Res.panic Panic.nilDereference := by
  unfold svgCanvas.onDelete
  simp [h]

/-! ## Export and import -/

theorem stateRecord_connections_raw (h : List Node) (d1 d2 : Int) (ps : List Ptr) :
    (ps.filterMap (fun p => (h[p]?).map (stateRecord d1 d2))).map (fun r => r.Connections) =
      (ps.filterMap (fun p => h[p]?)).map (fun n => n.Connections.map Prod.fst) := by
  induction ps with
  | nil => rfl
  | cons p ps ih =>
    cases hp : h[p]? with
    | none => simpa [List.filterMap_cons, hp] using ih
    | some n => simpa [List.filterMap_cons, hp, stateRecord] using ih

theorem State_connections_raw (sc : svgCanvas) :
    sc.State.Nodes.map (fun r => r.Connections) =
      sc.liveNodes.map (fun n => n.Connections.map Prod.fst) :=
  stateRecord_connections_raw sc.heap _ _ sc.nodes

/-- C1.  After the intents of traceRecreateVar (all of them accepted) the canvas
holds CheckNode 0 connected to VarNode 1.  The export gives the VarNode the
Index 0 while the Connections of the CheckNode list the raw index 1: the export
does not list the exported indices of the connected nodes. -/
theorem State_lists_raw_connection_indices :
    (run svgCanvas.OnMount traceRecreateVar).map svgCanvas.State = Res.ok
      { Nodes := [
        { Connections := [1], Index := 0, X := 0, Y := 0, Type' := NodeType.CheckNode },
        { Connections := [0], Index := 0, X := 1, Y := 0, Type' := NodeType.VarNode }] } ∧
    (run svgCanvas.OnMount traceRecreateVar).map svgCanvas.connectionsNormalized =
      Res.ok false := by
  decide

/-- C2.  In the state reached by traceRecreateVar, exporting, importing the result
and exporting again yields records without connections, which differ from the
first export also when Connections are compared as sets. -/
theorem reExport_differs_from_export :
    (run svgCanvas.OnMount traceRecreateVar).bind svgCanvas.reExport = Res.ok
      { Nodes := [
        { Connections := [], Index := 0, X := 0, Y := 0, Type' := NodeType.CheckNode },
        { Connections := [], Index := 0, X := 1, Y := 0, Type' := NodeType.VarNode }] } ∧
    (run svgCanvas.OnMount traceRecreateVar).bind
      (fun sc => sc.reExport.map (fun e => sameExport e sc.State)) = Res.ok false := by
  decide

/-- C3.  Deleting the selected CheckNode 0 that is connected to VarNodes 0 and 1
removes the CheckNode, but both remaining VarNodes keep the entry for index 0 in
their connection sets and the export lists it. -/
theorem delete_check_keeps_references :
    (run svgCanvas.OnMount traceDeleteCheck).map svgCanvas.State = Res.ok
      { Nodes := [
        { Connections := [0], Index := 1, X := 2, Y := 0, Type' := NodeType.VarNode },
        { Connections := [0], Index := 0, X := 1, Y := 0, Type' := NodeType.VarNode }] } ∧
    (run svgCanvas.OnMount traceDeleteCheck).map
      (fun sc => sc.liveNodes.map (fun n => (n.NodeType, n.Index, n.Connections.map Prod.fst))) =
      Res.ok [(NodeType.VarNode, 1, [0]), (NodeType.VarNode, 0, [0])] := by
  decide

/-- C4.  After traceUndoToGap and one more click on the free cell (5,0) the live
VarNode 1 holds index 2 in its connection set while the live CheckNode 2 created
by the click does not hold index 1: adjacency is not symmetric. -/
theorem adjacency_asymmetric_after_undo :
    (run svgCanvas.OnMount (traceUndoToGap ++ [Intent.pointClicked 5 0])).map
      svgCanvas.adjacencySymmetric = Res.ok false ∧
    (run svgCanvas.OnMount (traceUndoToGap ++ [Intent.pointClicked 5 0])).map
      (fun sc => sc.liveNodes.map (fun n => (n.NodeType, n.Index, n.Connections.map Prod.fst))) =
      Res.ok [(NodeType.CheckNode, 0, [0]), (NodeType.VarNode, 0, [0]),
        (NodeType.CheckNode, 2, [1]), (NodeType.VarNode, 1, [2]),
        (NodeType.CheckNode, 2, [])] := by
  decide

/-- C5.  After traceUndoToGap the restored graph has the CheckNodes 0 and 2 and
the counter of CheckNodes is 2; the click on the free cell (5,0) then creates a
second CheckNode with Index 2. -/
theorem createNewNode_reuses_index_after_undo :
    (run svgCanvas.OnMount traceUndoToGap).map
      (fun sc => (sc.liveIdentities, sc.count NodeType.CheckNode, sc.spaceFreeAt 5 0)) =
      Res.ok ([(NodeType.CheckNode, 0), (NodeType.VarNode, 0), (NodeType.CheckNode, 2),
        (NodeType.VarNode, 1)], 2, true) ∧
    (run svgCanvas.OnMount (traceUndoToGap ++ [Intent.pointClicked 5 0])).map
      svgCanvas.liveIdentities =
      Res.ok [(NodeType.CheckNode, 0), (NodeType.VarNode, 0), (NodeType.CheckNode, 2),
        (NodeType.VarNode, 1), (NodeType.CheckNode, 2)] ∧
    (run svgCanvas.OnMount (traceUndoToGap ++ [Intent.pointClicked 5 0])).map
      svgCanvas.indicesUnique = Res.ok false := by
  decide

/-- C9.  After the first click the history holds exactly one entry; the Undo
intent then drops it and panics on the slice access instead of falling back to
the empty graph. -/
theorem undo_with_single_entry_panics :
    (run svgCanvas.OnMount [Intent.pointClicked 0 0]).map (fun sc => sc.history.length) =
      Res.ok 1 ∧
    run svgCanvas.OnMount ([Intent.pointClicked 0 0] ++ pressUndo) =
      Res.panic Panic.indexOutOfRange := by
  decide

/-- C10.  On the freshly mounted canvas, where no node is selected, the Delete
intent panics with a nil dereference. -/
theorem delete_without_selection_panics :
    svgCanvas.OnMount.map (fun sc => sc.selectedNode) = Res.ok none ∧
    run svgCanvas.OnMount pressDelete = Res.panic Panic.nilDereference := by
  decide


/-! ## Claims on the connection manager -/

/-- C6 (as stated, refuted).  With an absent receiver and a present argument
ConnectTo does not return false: it panics with a nil dereference. -/
theorem ConnectTo_nil_receiver_panics :
    Node.ConnectTo heapUnconnected none (some 1) =
      (Res.panic Panic.nilDereference, heapUnconnected) := by
  decide

/-- Instance of ConnectTo_contract: the unconnected CheckNode 0 and VarNode 0
are connected by a call in either order. -/
theorem ConnectTo_contract_witness :
    ∃ h1, Node.ConnectTo heapUnconnected (some 0) (some 1) = (Res.ok true, h1) ∧
      Node.ConnectTo heapUnconnected (some 1) (some 0) = (Res.ok true, h1) ∧
      h1.length = heapUnconnected.length := by
  obtain ⟨h1, _, _, q1, q2, q3, _⟩ :=
    (ConnectTo_contract heapUnconnected 0 1 _ _ rfl rfl rfl rfl).1 rfl
  exact ⟨h1, q1, q2, q3⟩

/-- C8 (as stated, refuted).  After the CheckNode 0 is disconnected from the
VarNode 0 the connection set of the VarNode still holds index 0; and with an
absent receiver and a present argument the call panics. -/
theorem DeleteConnectionTo_keeps_var_side :
    (Node.DeleteConnectionTo heapConnected (some 0) (some 1)).1 = Res.ok () ∧
    (Node.DeleteConnectionTo heapConnected (some 0) (some 1)).2.map
      (fun n => n.Connections) = [[], [(0, 0)]] ∧
    (Node.DeleteConnectionTo heapConnected (some 1) (some 0)).2.map
      (fun n => n.Connections) = [[], [(0, 0)]] ∧
    Node.DeleteConnectionTo heapConnected none (some 1) =
      (Res.panic Panic.nilDereference, heapConnected) := by
  decide

/-- Instance of DeleteConnectionTo_contract: the connected CheckNode 0 and
VarNode 0 are disconnected by a call in either order. -/
theorem DeleteConnectionTo_contract_witness :
    ∃ h1 cc, Node.DeleteConnectionTo heapConnected (some 0) (some 1) = (Res.ok (), h1) ∧
      Node.DeleteConnectionTo heapConnected (some 1) (some 0) = (Res.ok (), h1) ∧
      (h1[0]?).map (fun n => n.Connections) = some cc ∧ mapGet? cc 0 = none := by
  obtain ⟨⟨h1, cc, cv, q1, q2, _, q4, _, q6, _⟩, _⟩ :=
    DeleteConnectionTo_contract heapConnected 0 1 _ _ rfl rfl rfl rfl
  refine ⟨h1, cc, q1, q2, ?_, ?_⟩
  · rw [q4]; rfl
  · have := q6 0
    simpa using this

theorem DeleteConnectionTo_var_side (h : List Node) (c v : Ptr) (nc nv : Node)
    (hc : h[c]? = some nc) (hv : h[v]? = some nv)
    (hct : nc.NodeType = NodeType.CheckNode) (hvt : nv.NodeType = NodeType.VarNode) :
    (Node.DeleteConnectionTo h (some c) (some v)).2[v]? = some nv ∧
    (Node.DeleteConnectionTo h (some v) (some c)).2[v]? = some nv := by
  have hne : ¬ v = c := by
    intro e
    subst e
    rw [hc] at hv
    cases hv
    rw [hct] at hvt
    cases hvt
  constructor
  · simp [Node.DeleteConnectionTo, hc, hv, hct, getElem?_heapModify, hne]
  · simp [Node.DeleteConnectionTo, hc, hv, hct, hvt, getElem?_heapModify, hne]

/-! ## Claim on bipartite edges -/

theorem ConnectTo_same_type (h : List Node) (a b : Ptr) (na nb : Node)
    (ha : h[a]? = some na) (hb : h[b]? = some nb) (ht : na.NodeType = nb.NodeType) :
    Node.ConnectTo h (some a) (some b) = (Res.panic Panic.sameNodeTypes, h) := by
  simp [Node.ConnectTo, ha, hb, ht]

theorem State_connections_bipartite (sc : svgCanvas) (hb : Bipartite sc.heap)
    (r : nodeJson) (hr : r ∈ sc.State.Nodes) (c : Int) (hc : c ∈ r.Connections) :
    ∃ (q : Ptr) (m : Node), sc.heap[q]? = some m ∧ m.NodeType ≠ r.Type' ∧ m.Index = c := by
  unfold svgCanvas.State at hr
  simp only [List.mem_filterMap] at hr
  obtain ⟨p, _, hp⟩ := hr
  cases hn : sc.heap[p]? with
  | none => simp [hn] at hp
  | some n =>
    simp [hn] at hp
    subst hp
    simp only [stateRecord, List.mem_map] at hc
    obtain ⟨e, he, hec⟩ := hc
    obtain ⟨k, q⟩ := e
    simp only at hec
    subst hec
    obtain ⟨m, hm, hmt, hmi⟩ := hb p n hn k q he
    exact ⟨q, m, hm, hmt, hmi⟩

/-- C7.  ConnectTo on two present nodes of the same NodeType (the same node
included) panics and leaves the heap, hence both connection sets, as it was.
In every reachable state every entry of every connection set refers to a node
of the other NodeType whose Index is the key, and every index listed in the
Connections of an exported record is the Index of a node of the other NodeType
than the record; an import of any payload keeps this property. -/
theorem edges_only_between_different_types :
    (∀ (h : List Node) (a b : Ptr) (na nb : Node), h[a]? = some na → h[b]? = some nb →
      na.NodeType = nb.NodeType →
      Node.ConnectTo h (some a) (some b) = (Res.panic Panic.sameNodeTypes, h)) ∧
    (∀ sc : svgCanvas, Reachable sc → Bipartite sc.heap) ∧
    (∀ sc : svgCanvas, Reachable sc → ∀ r ∈ sc.State.Nodes, ∀ c ∈ r.Connections,
      ∃ (q : Ptr) (m : Node), sc.heap[q]? = some m ∧ m.NodeType ≠ r.Type' ∧ m.Index = c) ∧
    (∀ (sc sc1 : svgCanvas) (state : svgCanvasJson), Bipartite sc.heap →
      sc.SetState state = Res.ok sc1 → Bipartite sc1.heap) :=
  ⟨ConnectTo_same_type, Bipartite_of_Reachable,
    fun sc hr r hrm c hc => State_connections_bipartite sc (Bipartite_of_Reachable sc hr) r hrm c hc,
    fun sc sc1 state hb h => Bipartite_SetState sc sc1 state hb h⟩

theorem run_two_clicks :
    run svgCanvas.OnMount [Intent.pointClicked 0 0, Intent.pointClicked 1 0] =
      Res.ok canvasTwoNodes := by
  decide

/-- Instance of edges_only_between_different_types: connecting the CheckNode of
canvasTwoNodes to itself panics, and the reachable canvasTwoNodes is
bipartite. -/
theorem edges_only_between_different_types_witness :
    Node.ConnectTo canvasTwoNodes.heap (some 0) (some 0) =
      (Res.panic Panic.sameNodeTypes, canvasTwoNodes.heap) ∧
    Bipartite canvasTwoNodes.heap :=
  ⟨edges_only_between_different_types.1 canvasTwoNodes.heap 0 0 _ _ rfl rfl rfl,
    edges_only_between_different_types.2.1 canvasTwoNodes
      (Reachable_run_OnMount _ _ run_two_clicks)⟩

/-! ## Scenarios of the interaction state machine -/

/-- C14.  From the mounted empty canvas, a click on (0,0) and a click on (1,0)
give an export with exactly the CheckNode 0 at (0,0) with Connections [0] and
the VarNode 0 at (1,0) with the mirrored Connections [0]; one Undo afterwards
succeeds and the export then holds only the CheckNode at (0,0) with empty
Connections. -/
theorem scenario_two_clicks_then_undo :
    (svgCanvas.OnMount.map (fun sc => (sc.State, sc.history))) =
      Res.ok ({ Nodes := [] }, []) ∧
    (run svgCanvas.OnMount [Intent.pointClicked 0 0, Intent.pointClicked 1 0]).map
      svgCanvas.State = Res.ok
      { Nodes := [
        { Connections := [0], Index := 0, X := 0, Y := 0, Type' := NodeType.CheckNode },
        { Connections := [0], Index := 0, X := 1, Y := 0, Type' := NodeType.VarNode }] } ∧
    (run svgCanvas.OnMount
      ([Intent.pointClicked 0 0, Intent.pointClicked 1 0] ++ pressUndo)).map
      svgCanvas.State = Res.ok
      { Nodes := [
        { Connections := [], Index := 0, X := 0, Y := 0, Type' := NodeType.CheckNode }] } := by
  decide

/-- C18.  After traceUndoToGap, a click on the free cell (5,0) and Delete, the
node list still holds the node that was selected, with its selection flag set,
while no selection is recorded; one more click on (0,0) gives two nodes of the
node list with the flag set. -/
theorem selection_flag_survives_delete :
    (run svgCanvas.OnMount (traceUndoToGap ++ [Intent.pointClicked 5 0] ++ pressDelete)).map
      (fun sc => (sc.selectedNode, sc.selectedCount, sc.selectionConsistent)) =
      Res.ok (none, 1, false) ∧
    (run svgCanvas.OnMount
      (traceUndoToGap ++ [Intent.pointClicked 5 0] ++ pressDelete ++
        [Intent.pointClicked 0 0])).map
      (fun sc => (sc.selectedCount, sc.selectionConsistent)) = Res.ok (2, false) := by
  decide

/-- C19.  With VarNode 0 selected and connected to CheckNode 0, a point click on
the occupied cell (0,0) creates no connection (the connection sets are as
before) and yet appends a history entry; the same click delivered to the node
itself leaves the history unchanged.  Both make the CheckNode the selection. -/
theorem point_click_on_connected_node_records_history :
    (run svgCanvas.OnMount [Intent.pointClicked 0 0, Intent.pointClicked 1 0]).map
      (fun sc => (sc.liveSummary, sc.history.length, sc.selectedNode)) =
      Res.ok ([(NodeType.CheckNode, 0, (0, 0), [0]), (NodeType.VarNode, 0, (1, 0), [0])],
        2, some 1) ∧
    (run svgCanvas.OnMount
      [Intent.pointClicked 0 0, Intent.pointClicked 1 0, Intent.pointClicked 0 0]).map
      (fun sc => (sc.liveSummary, sc.history.length, sc.selectedNode)) =
      Res.ok ([(NodeType.CheckNode, 0, (0, 0), [0]), (NodeType.VarNode, 0, (1, 0), [0])],
        3, some 0) ∧
    (run svgCanvas.OnMount
      [Intent.pointClicked 0 0, Intent.pointClicked 1 0, Intent.nodeClicked 0]).map
      (fun sc => (sc.liveSummary, sc.history.length, sc.selectedNode)) =
      Res.ok ([(NodeType.CheckNode, 0, (0, 0), [0]), (NodeType.VarNode, 0, (1, 0), [0])],
        2, some 0) := by
  exact ⟨rfl, rfl, rfl⟩

/-- C20.  After traceUndoToVarGap and a click that selects the CheckNode 2 at
(4,0), the cell (7,0) is free; the click on it creates VarNode 2 there and
selects it, but the new node has no connection: the CheckNode already holds
index 2 for the VarNode at (5,0). -/
theorem click_on_free_cell_leaves_new_node_unconnected :
    (run svgCanvas.OnMount (traceUndoToVarGap ++ [Intent.pointClicked 4 0])).map
      (fun sc => (sc.liveSummary, sc.selectedNode, sc.spaceFreeAt 7 0)) =
      Res.ok ([(NodeType.CheckNode, 0, (0, 0), [0]), (NodeType.VarNode, 0, (1, 0), [0, 1]),
        (NodeType.CheckNode, 1, (2, 0), [0]), (NodeType.VarNode, 2, (5, 0), [2]),
        (NodeType.CheckNode, 2, (4, 0), [2])], some 11, true) ∧
    (run svgCanvas.OnMount
      (traceUndoToVarGap ++ [Intent.pointClicked 4 0, Intent.pointClicked 7 0])).map
      (fun sc => (sc.liveSummary, sc.selectedNode)) =
      Res.ok ([(NodeType.CheckNode, 0, (0, 0), [0]), (NodeType.VarNode, 0, (1, 0), [0, 1]),
        (NodeType.CheckNode, 1, (2, 0), [0]), (NodeType.VarNode, 2, (5, 0), [2]),
        (NodeType.CheckNode, 2, (4, 0), [2]), (NodeType.VarNode, 2, (7, 0), [])],
        some 12) := by
  exact ⟨rfl, rfl⟩

/-- C13.  After traceUndoToGap and a click on the free cell (5,0) the selected
node is in the node list and is the occupant of (5,0).  Delete calls DeleteNode
on it: the node at (5,0) stays in the node list and the node at (4,0), which
has the same type and Index, is removed from it, while the occupancy index
loses (5,0) and keeps (4,0). -/
theorem DeleteNode_removes_other_node_with_same_index :
    (run svgCanvas.OnMount (traceUndoToGap ++ [Intent.pointClicked 5 0])).map
      (fun sc => (sc.selectedNode, sc.nodes, sc.liveCells, sc.posToNode)) =
      Res.ok (some 10, [6, 7, 8, 9, 10], [(0, 0), (1, 0), (4, 0), (3, 0), (5, 0)],
        [((0, 0), 6), ((1, 0), 7), ((4, 0), 8), ((3, 0), 9), ((5, 0), 10)]) ∧
    (run svgCanvas.OnMount (traceUndoToGap ++ [Intent.pointClicked 5 0])).bind
      (fun sc => (sc.DeleteNode sc.selectedNode).map
        (fun sc1 => (sc1.nodes, sc1.liveCells, sc1.posToNode))) =
      Res.ok ([6, 7, 10, 9], [(0, 0), (1, 0), (5, 0), (3, 0)],
        [((0, 0), 6), ((1, 0), 7), ((4, 0), 8), ((3, 0), 9)]) := by
  exact ⟨rfl, rfl⟩

/-! ## Undo on an empty history -/

/-- C17.  With an empty history the Undo case returns normally and leaves the
canvas as it is; delivered through OnKeyDown (Z goes down while Ctrl is held and
Escape is not), only the key map changes: node list, heap (hence every
connection set), occupancy index, selection and history are unchanged. -/
theorem undo_on_empty_history (sc : svgCanvas) (hh : sc.history = []) :
    sc.onUndo = Res.ok sc ∧
    (mapGet? sc.keys KeyZ = none → sc.keyHeld Ctrl = true → sc.keyHeld Esc = false →
      ∃ sc1, sc.OnKeyDown KeyZ = Res.ok sc1 ∧ sc1.nodes = sc.nodes ∧ sc1.heap = sc.heap ∧
        sc1.posToNode = sc.posToNode ∧ sc1.selectedNode = sc.selectedNode ∧
        sc1.history = sc.history ∧ sc1.nodeMap = sc.nodeMap ∧
        sc1.nodeTypeCounts = sc.nodeTypeCounts) := by
  constructor
  · simp [svgCanvas.onUndo, hh]
  · intro hz hc he
    refine ⟨{ sc with keys := mapSet sc.keys KeyZ true }, ?_, rfl, rfl, rfl, rfl, rfl, rfl, rfl⟩
    have e1 : Esc ≠ KeyZ := by decide
    have e2 : Ctrl ≠ KeyZ := by decide
    unfold svgCanvas.keyHeld at hc he
    simp [svgCanvas.OnKeyDown, hz, svgCanvas.keyHeld, mapGet?_mapSet, e1, e2, hc, he,
      svgCanvas.onUndo, hh]

theorem OnMount_eq : svgCanvas.OnMount = Res.ok canvasMounted := by
  decide

theorem run_ctrl_down :
    run svgCanvas.OnMount [Intent.keyDown Ctrl] = Res.ok canvasCtrlHeld := by
  decide

/-- Instance of undo_on_empty_history: on the mounted canvas with Ctrl held, the
Z key leaves the empty graph and the empty history as they are. -/
theorem undo_on_empty_history_witness :
    canvasCtrlHeld.history = [] ∧ canvasCtrlHeld.onUndo = Res.ok canvasCtrlHeld ∧
    ∃ sc1, canvasCtrlHeld.OnKeyDown KeyZ = Res.ok sc1 ∧ sc1.nodes = canvasCtrlHeld.nodes ∧
      sc1.history = canvasCtrlHeld.history := by
  obtain ⟨h1, h2⟩ := undo_on_empty_history canvasCtrlHeld rfl
  obtain ⟨sc1, q1, q2, _, _, _, q6, _⟩ := h2 (by decide) (by decide) (by decide)
  exact ⟨rfl, h1, sc1, q1, q2, q6⟩

/-! ## Node registry: creation -/

theorem wrap64_eq_self (v : Int) (h1 : -MaxInt - 1 ≤ v) (h2 : v ≤ MaxInt) : wrap64 v = v := by
  unfold wrap64
  unfold MaxInt at h1 h2
  omega

theorem count_mapSet (sc sc1 : svgCanvas) (t t' : NodeType) (v : Int)
    (h : sc1.nodeTypeCounts = mapSet sc.nodeTypeCounts t v) :
    sc1.count t' = if t' = t then v else sc.count t' := by
  unfold svgCanvas.count
  rw [h, mapGet?_mapSet]
  split <;> rfl

theorem createNode_occupied (sc : svgCanvas) (t : NodeType) (i x y : Int)
    (h : (mapGet? sc.posToNode (x, y)).isSome = true) : sc.createNode t i x y = (sc, none) := by
  unfold svgCanvas.createNode
  cases hg : mapGet? sc.posToNode (x, y) with
  | none => simp [hg] at h
  | some p => rfl

theorem createNode_free (sc : svgCanvas) (t : NodeType) (i x y : Int)
    (h : mapGet? sc.posToNode (x, y) = none) :
    sc.createNode t i x y =
      ({ sc with
          heap := sc.heap ++ [{ NodeType := t, Index := i, Connections := [],
                                X := x, Y := y, Selected := false, Highlighted := false }]
          posToNode := mapSet sc.posToNode (x, y) sc.heap.length
          nodes := sc.nodes ++ [sc.heap.length]
          nodeMap := mapSet sc.nodeMap (t, i) sc.heap.length
          nodeTypeCounts := mapSet sc.nodeTypeCounts t (wrap64 (sc.count t + 1)) },
       some sc.heap.length) := by
  unfold svgCanvas.createNode
  simp [h]

/-- C11.  createNode with a minted index (createNewNode).  On an occupied cell it
returns nil and leaves the whole canvas unchanged.  On a free cell it returns a
pointer that was not allocated before, to an unselected node without
connections at (x, y) whose Index is the current counter of the type; the node
list is the old one with that pointer appended, the occupant of (x, y) is the
new node and every other cell keeps its occupant, the counter of the type is
incremented (in 64-bit arithmetic, which is plus one for every counter below
the largest int), the counter of the other type, every existing node, the
selection and the history are unchanged. -/
theorem createNewNode_contract (sc : svgCanvas) (t : NodeType) (x y : Int) :
    ((mapGet? sc.posToNode (x, y)).isSome = true → sc.createNewNode t x y = (sc, none)) ∧
    (mapGet? sc.posToNode (x, y) = none →
      ∃ (sc1 : svgCanvas) (p : Ptr), sc.createNewNode t x y = (sc1, some p) ∧
        sc.heap[p]? = none ∧
        sc1.heap[p]? = some { NodeType := t, Index := sc.count t, Connections := [],
                              X := x, Y := y, Selected := false, Highlighted := false } ∧
        sc1.nodes = sc.nodes ++ [p] ∧
        mapGet? sc1.posToNode (x, y) = some p ∧
        (∀ cell, cell ≠ (x, y) → mapGet? sc1.posToNode cell = mapGet? sc.posToNode cell) ∧
        sc1.count t = wrap64 (sc.count t + 1) ∧
        (-MaxInt - 1 ≤ sc.count t → sc.count t < MaxInt → sc1.count t = sc.count t + 1) ∧
        (∀ t', t' ≠ t → sc1.count t' = sc.count t') ∧
        (∀ (q : Ptr) (n : Node), sc.heap[q]? = some n → sc1.heap[q]? = some n) ∧
        sc1.selectedNode = sc.selectedNode ∧ sc1.history = sc.history) := by
  constructor
  · intro h
    exact createNode_occupied sc t _ x y h
  · intro h
    refine ⟨_, sc.heap.length, createNode_free sc t _ x y h, ?_, ?_, rfl, ?_, ?_, ?_, ?_, ?_, ?_,
      rfl, rfl⟩
    · simp
    · simp
    · show mapGet? (mapSet sc.posToNode (x, y) sc.heap.length) (x, y) = some sc.heap.length
      rw [mapGet?_mapSet]; simp
    · intro cell hc
      show mapGet? (mapSet sc.posToNode (x, y) sc.heap.length) cell = mapGet? sc.posToNode cell
      rw [mapGet?_mapSet]; simp [hc]
    · rw [count_mapSet sc _ t t _ rfl]; simp
    · intro h1 h2
      rw [count_mapSet sc _ t t _ rfl, if_pos rfl]
      apply wrap64_eq_self
      · unfold MaxInt at h1 ⊢; omega
      · unfold MaxInt at h2 ⊢; omega
    · intro t' ht
      rw [count_mapSet sc _ t t' _ rfl, if_neg ht]
    · intro q n hq
      have hlt : q < sc.heap.length := by
        rcases Nat.lt_or_ge q sc.heap.length with h1 | h1
        · exact h1
        · rw [List.getElem?_eq_none h1] at hq; cases hq
      simp only
      rw [List.getElem?_append_left hlt]
      exact hq

/-- Instance of createNewNode_contract: on the mounted canvas the cell (0,0) is
free and the first CheckNode gets Index 0 and the counter becomes 1; on
canvasTwoNodes the cell (0,0) is occupied and nothing changes. -/
theorem createNewNode_contract_witness :
    (∃ (sc1 : svgCanvas) (p : Ptr),
      canvasMounted.createNewNode NodeType.CheckNode 0 0 = (sc1, some p) ∧
      sc1.nodes = [p] ∧ sc1.count NodeType.CheckNode = 1) ∧
    canvasTwoNodes.createNewNode NodeType.VarNode 0 0 = (canvasTwoNodes, none) := by
  constructor
  · obtain ⟨sc1, p, q1, _, _, q4, _, _, _, q8, _⟩ :=
      (createNewNode_contract canvasMounted NodeType.CheckNode 0 0).2 rfl
    exact ⟨sc1, p, q1, q4, q8 (by decide) (by decide)⟩
  · exact (createNewNode_contract canvasTwoNodes NodeType.VarNode 0 0).1 rfl

/-! ## Occupancy uniqueness under creation -/

theorem getElem?_lt_of_eq_some (h : List Node) (p : Ptr) (n : Node) (hp : h[p]? = some n) :
    p < h.length := by
  rcases Nat.lt_or_ge p h.length with h1 | h1
  · exact h1
  · rw [List.getElem?_eq_none h1] at hp; cases hp

theorem liveNodes_append_heap (sc : svgCanvas) (extra : List Node)
    (hocc : sc.nodesOccupyCells) :
    sc.nodes.filterMap (fun p => (sc.heap ++ extra)[p]?) = sc.liveNodes := by
  unfold svgCanvas.liveNodes
  apply List.filterMap_congr
  intro p hp
  obtain ⟨n, hn, _⟩ := hocc p hp
  rw [List.getElem?_append_left (getElem?_lt_of_eq_some _ _ _ hn)]

theorem occupancy_createNode (sc : svgCanvas) (t : NodeType) (i x y : Int)
    (hocc : sc.nodesOccupyCells) (hnd : sc.liveCells.Nodup)
    (hlen : sc.liveCells.length = sc.nodes.length) :
    (sc.createNode t i x y).1.nodesOccupyCells ∧ (sc.createNode t i x y).1.liveCells.Nodup ∧
      (sc.createNode t i x y).1.liveCells.length = (sc.createNode t i x y).1.nodes.length := by
  cases hfree : mapGet? sc.posToNode (x, y) with
  | some q =>
    rw [createNode_occupied sc t i x y (by simp [hfree])]
    exact ⟨hocc, hnd, hlen⟩
  | none =>
    rw [createNode_free sc t i x y hfree]
    have hlive : svgCanvas.liveNodes
        { sc with
          heap := sc.heap ++ [{ NodeType := t, Index := i, Connections := [],
                                X := x, Y := y, Selected := false, Highlighted := false }]
          posToNode := mapSet sc.posToNode (x, y) sc.heap.length
          nodes := sc.nodes ++ [sc.heap.length]
          nodeMap := mapSet sc.nodeMap (t, i) sc.heap.length
          nodeTypeCounts := mapSet sc.nodeTypeCounts t (wrap64 (sc.count t + 1)) } =
        sc.liveNodes ++ [{ NodeType := t, Index := i, Connections := [],
                           X := x, Y := y, Selected := false, Highlighted := false }] := by
      show List.filterMap _ (sc.nodes ++ [sc.heap.length]) = _
      rw [List.filterMap_append, liveNodes_append_heap sc _ hocc]
      simp
    have hnotin : (x, y) ∉ sc.liveCells := by
      intro hin
      unfold svgCanvas.liveCells svgCanvas.liveNodes at hin
      simp only [List.mem_map, List.mem_filterMap] at hin
      obtain ⟨n, ⟨p, hp, hpn⟩, hcell⟩ := hin
      obtain ⟨n', hn', hocc'⟩ := hocc p hp
      rw [hpn] at hn'
      cases hn'
      have hx : n.X = x := congrArg Prod.fst hcell
      have hy : n.Y = y := congrArg Prod.snd hcell
      rw [hx, hy, hfree] at hocc'
      cases hocc'
    refine ⟨?_, ?_, ?_⟩
    · intro p hp
      simp only [List.mem_append, List.mem_singleton] at hp
      rcases hp with hp | hp
      · obtain ⟨n, hn, hcell⟩ := hocc p hp
        refine ⟨n, ?_, ?_⟩
        · simp only
          rw [List.getElem?_append_left (getElem?_lt_of_eq_some _ _ _ hn)]
          exact hn
        · simp only
          rw [mapGet?_mapSet]
          have hne : ¬ (n.X, n.Y) = (x, y) := by
            intro e
            rw [e, hfree] at hcell
            cases hcell
          rw [if_neg hne]
          exact hcell
      · subst hp
        refine ⟨{ NodeType := t, Index := i, Connections := [],
                  X := x, Y := y, Selected := false, Highlighted := false }, ?_, ?_⟩
        · simp only
          rw [List.getElem?_append_right (Nat.le_refl _)]
          simp
        · simp only
          rw [mapGet?_mapSet]
          simp
    · unfold svgCanvas.liveCells
      rw [hlive, List.map_append]
      apply List.Nodup.append hnd
      · simp
      · intro c hc hc'
        simp only [List.map_cons, List.map_nil, List.mem_singleton] at hc'
        subst hc'
        exact hnotin hc
    · unfold svgCanvas.liveCells
      rw [hlive]
      unfold svgCanvas.liveCells at hlen
      simp [hlen]

/-- C12.  After any sequence of node creations from the mounted canvas (minted or
caller-supplied index, any cells, repeated cells included) the cells of the
nodes of the node list are pairwise distinct, every pointer of the list is
allocated, and every node of the list is the occupant recorded for its own
cell. -/
theorem occupancy_unique_under_creation (sc : svgCanvas) (hc : Created sc) :
    sc.liveCells.Nodup ∧ sc.liveCells.length = sc.nodes.length ∧ sc.nodesOccupyCells := by
  have key : sc.nodesOccupyCells ∧ sc.liveCells.Nodup ∧
      sc.liveCells.length = sc.nodes.length := by
    induction hc with
    | mount h =>
      rw [OnMount_eq] at h
      cases h
      refine ⟨?_, ?_, rfl⟩
      · intro p hp
        cases hp
      · exact List.nodup_nil
    | minted t x y _ ih =>
      exact occupancy_createNode _ t _ x y ih.1 ih.2.1 ih.2.2
    | supplied t i x y _ ih =>
      exact occupancy_createNode _ t i x y ih.1 ih.2.1 ih.2.2
  exact ⟨key.2.1, key.2.2, key.1⟩

/-- Instance of occupancy_unique_under_creation: two creations on the same cell
(0,0) followed by one on (1,0) leave two nodes, at distinct cells. -/
theorem occupancy_unique_under_creation_witness :
    svgCanvas.liveCells
      (((canvasMounted.createNewNode NodeType.CheckNode 0 0).1.createNewNode
        NodeType.VarNode 0 0).1.createNode NodeType.VarNode 7 1 0).1 = [(0, 0), (1, 0)] ∧
    (svgCanvas.liveCells
      (((canvasMounted.createNewNode NodeType.CheckNode 0 0).1.createNewNode
        NodeType.VarNode 0 0).1.createNode NodeType.VarNode 7 1 0).1).Nodup :=
  ⟨by decide,
    (occupancy_unique_under_creation _
      (Created.supplied NodeType.VarNode 7 1 0
        (Created.minted NodeType.VarNode 0 0
          (Created.minted NodeType.CheckNode 0 0 (Created.mount OnMount_eq))))).1⟩

/-! ## Export: normalization of Index -/

theorem min_step (i d : Int) :
    ∃ μ : Int, (if i < d then i else d) = μ ∧ μ ≤ d ∧ μ ≤ i ∧ (μ = d ∨ μ = i) := by
  by_cases hlt : i < d
  · exact ⟨i, if_pos hlt, by omega, Int.le_refl _, Or.inr rfl⟩
  · exact ⟨d, if_neg hlt, Int.le_refl _, by omega, Or.inl rfl⟩

theorem stateDeltas_spec (H : List Node) (ps : List Ptr) :
    ∀ d0 : Int × Int,
      ((stateDeltas H ps d0).1 ≤ d0.1 ∧
        (∀ n ∈ ps.filterMap (fun p => H[p]?), n.NodeType = NodeType.CheckNode →
          (stateDeltas H ps d0).1 ≤ n.Index) ∧
        ((stateDeltas H ps d0).1 = d0.1 ∨
          ∃ n ∈ ps.filterMap (fun p => H[p]?), n.NodeType = NodeType.CheckNode ∧
            n.Index = (stateDeltas H ps d0).1)) ∧
      ((stateDeltas H ps d0).2 ≤ d0.2 ∧
        (∀ n ∈ ps.filterMap (fun p => H[p]?), n.NodeType ≠ NodeType.CheckNode →
          (stateDeltas H ps d0).2 ≤ n.Index) ∧
        ((stateDeltas H ps d0).2 = d0.2 ∨
          ∃ n ∈ ps.filterMap (fun p => H[p]?), n.NodeType ≠ NodeType.CheckNode ∧
            n.Index = (stateDeltas H ps d0).2)) := by
  induction ps with
  | nil =>
    intro d0
    simp [stateDeltas]
  | cons p ps ih =>
    intro d0
    obtain ⟨dc, dv⟩ := d0
    cases hp : H[p]? with
    | none =>
      have e : stateDeltas H (p :: ps) (dc, dv) = stateDeltas H ps (dc, dv) := by
        simp [stateDeltas, hp]
      rw [e]
      simpa [List.filterMap_cons, hp] using ih (dc, dv)
    | some m =>
      by_cases ht : m.NodeType = NodeType.CheckNode
      · obtain ⟨μ, hμ, m1, m2, m3⟩ := min_step m.Index dc
        have e : stateDeltas H (p :: ps) (dc, dv) = stateDeltas H ps (μ, dv) := by
          simp [stateDeltas, hp, ht, hμ]
        rw [e]
        obtain ⟨⟨a1, a2, a3⟩, ⟨b1, b2, b3⟩⟩ := ih (μ, dv)
        simp only [List.filterMap_cons, hp, List.mem_cons]
        simp only at a1 b1 a3 b3
        refine ⟨⟨by omega, ?_, ?_⟩, ⟨b1, ?_, ?_⟩⟩
        · intro n hn hnt
          rcases hn with hn | hn
          · subst hn
            omega
          · exact a2 n hn hnt
        · rcases a3 with a3 | ⟨n, hn, hnt, hni⟩
          · rcases m3 with m3 | m3
            · exact Or.inl (a3.trans m3)
            · exact Or.inr ⟨m, Or.inl rfl, ht, (a3.trans m3).symm⟩
          · exact Or.inr ⟨n, Or.inr hn, hnt, hni⟩
        · intro n hn hnt
          rcases hn with hn | hn
          · subst hn
            exact absurd ht hnt
          · exact b2 n hn hnt
        · rcases b3 with b3 | ⟨n, hn, hnt, hni⟩
          · exact Or.inl b3
          · exact Or.inr ⟨n, Or.inr hn, hnt, hni⟩
      · obtain ⟨μ, hμ, m1, m2, m3⟩ := min_step m.Index dv
        have e : stateDeltas H (p :: ps) (dc, dv) = stateDeltas H ps (dc, μ) := by
          simp [stateDeltas, hp, ht, hμ]
        rw [e]
        obtain ⟨⟨a1, a2, a3⟩, ⟨b1, b2, b3⟩⟩ := ih (dc, μ)
        simp only [List.filterMap_cons, hp, List.mem_cons]
        simp only at a1 b1 a3 b3
        refine ⟨⟨a1, ?_, ?_⟩, ⟨by omega, ?_, ?_⟩⟩
        · intro n hn hnt
          rcases hn with hn | hn
          · subst hn
            exact absurd hnt ht
          · exact a2 n hn hnt
        · rcases a3 with a3 | ⟨n, hn, hnt, hni⟩
          · exact Or.inl a3
          · exact Or.inr ⟨n, Or.inr hn, hnt, hni⟩
        · intro n hn hnt
          rcases hn with hn | hn
          · subst hn
            omega
          · exact b2 n hn hnt
        · rcases b3 with b3 | ⟨n, hn, hnt, hni⟩
          · rcases m3 with m3 | m3
            · exact Or.inl (b3.trans m3)
            · exact Or.inr ⟨m, Or.inl rfl, ht, (b3.trans m3).symm⟩
          · exact Or.inr ⟨n, Or.inr hn, hnt, hni⟩

theorem State_eq_map (sc : svgCanvas) :
    sc.State.Nodes = sc.liveNodes.map
      (stateRecord (stateDeltas sc.heap sc.nodes (MaxInt, MaxInt)).1
        (stateDeltas sc.heap sc.nodes (MaxInt, MaxInt)).2) := by
  unfold svgCanvas.State svgCanvas.liveNodes
  simp only
  generalize (stateDeltas sc.heap sc.nodes (MaxInt, MaxInt)).1 = d1
  generalize (stateDeltas sc.heap sc.nodes (MaxInt, MaxInt)).2 = d2
  induction sc.nodes with
  | nil => rfl
  | cons p ps ih =>
    cases hp : sc.heap[p]? with
    | none => simpa [List.filterMap_cons, hp] using ih
    | some n => simpa [List.filterMap_cons, hp] using ih

theorem ne_check_iff (t : NodeType) : t ≠ NodeType.CheckNode ↔ t = NodeType.VarNode := by
  cases t <;> simp

/-- C15 (amended).  When the raw indices of the live nodes are Go ints and within
one type lie less than 2^63 apart (indicesFit), the export is the list of live
nodes, one record per node in order, each with the node's type, X and Y and with
Index equal to the raw Index minus the smallest raw Index among the live nodes
of the same type.  Hence every exported Index is non-negative, every type with
a live node has a record with Index 0, and the difference of the exported
indices of two nodes of one type is the difference of their raw indices. -/
theorem State_normalizes_index (sc : svgCanvas) (hfit : sc.indicesFit) :
    ∃ checkDelta varDelta : Int,
      sc.State.Nodes = sc.liveNodes.map (normalizedRecord checkDelta varDelta) ∧
      (∀ n ∈ sc.liveNodes, n.NodeType = NodeType.CheckNode → checkDelta ≤ n.Index) ∧
      ((∃ n ∈ sc.liveNodes, n.NodeType = NodeType.CheckNode) →
        ∃ n ∈ sc.liveNodes, n.NodeType = NodeType.CheckNode ∧ n.Index = checkDelta) ∧
      (∀ n ∈ sc.liveNodes, n.NodeType = NodeType.VarNode → varDelta ≤ n.Index) ∧
      ((∃ n ∈ sc.liveNodes, n.NodeType = NodeType.VarNode) →
        ∃ n ∈ sc.liveNodes, n.NodeType = NodeType.VarNode ∧ n.Index = varDelta) ∧
      (∀ r ∈ sc.State.Nodes, 0 ≤ r.Index) ∧
      (∀ t : NodeType, (∃ n ∈ sc.liveNodes, n.NodeType = t) →
        ∃ r ∈ sc.State.Nodes, r.Type' = t ∧ r.Index = 0) ∧
      (∀ a ∈ sc.liveNodes, ∀ b ∈ sc.liveNodes, a.NodeType = b.NodeType →
        (normalizedRecord checkDelta varDelta a).Index -
          (normalizedRecord checkDelta varDelta b).Index = a.Index - b.Index) := by
  obtain ⟨hrange, hspread⟩ := hfit
  obtain ⟨⟨_, a2, a3⟩, ⟨_, b2, b3⟩⟩ := stateDeltas_spec sc.heap sc.nodes (MaxInt, MaxInt)
  simp only at a3 b3
  have hlive : sc.nodes.filterMap (fun p => sc.heap[p]?) = sc.liveNodes := rfl
  rw [hlive] at a2 a3 b2 b3
  generalize hdc : (stateDeltas sc.heap sc.nodes (MaxInt, MaxInt)).1 = dc at a2 a3
  generalize hdv : (stateDeltas sc.heap sc.nodes (MaxInt, MaxInt)).2 = dv at b2 b3
  have b2' : ∀ n ∈ sc.liveNodes, n.NodeType = NodeType.VarNode → dv ≤ n.Index :=
    fun n hn ht => b2 n hn ((ne_check_iff _).2 ht)
  have exC : (∃ n ∈ sc.liveNodes, n.NodeType = NodeType.CheckNode) →
      ∃ n ∈ sc.liveNodes, n.NodeType = NodeType.CheckNode ∧ n.Index = dc := by
    rintro ⟨m, hm, hmt⟩
    rcases a3 with e | h3
    · have h1 := a2 m hm hmt
      have h2 := (hrange m hm).2
      exact ⟨m, hm, hmt, by omega⟩
    · exact h3
  have exV : (∃ n ∈ sc.liveNodes, n.NodeType = NodeType.VarNode) →
      ∃ n ∈ sc.liveNodes, n.NodeType = NodeType.VarNode ∧ n.Index = dv := by
    rintro ⟨m, hm, hmt⟩
    rcases b3 with e | ⟨n, hn, hnt, hni⟩
    · have h1 := b2' m hm hmt
      have h2 := (hrange m hm).2
      exact ⟨m, hm, hmt, by omega⟩
    · exact ⟨n, hn, (ne_check_iff _).1 hnt, hni⟩
  have hrec : ∀ n ∈ sc.liveNodes, stateRecord dc dv n = normalizedRecord dc dv n ∧
      0 ≤ (normalizedRecord dc dv n).Index := by
    intro n hn
    unfold stateRecord normalizedRecord
    by_cases ht : n.NodeType = NodeType.CheckNode
    · obtain ⟨b, hb, hbt, hbi⟩ := exC ⟨n, hn, ht⟩
      have h1 := a2 n hn ht
      have h2 := hspread n hn b hb (ht.trans hbt.symm)
      simp only [ht, if_true]
      refine ⟨?_, by omega⟩
      rw [wrap64_eq_self _ (by unfold MaxInt; omega) (by omega)]
    · have ht' := (ne_check_iff _).1 ht
      obtain ⟨b, hb, hbt, hbi⟩ := exV ⟨n, hn, ht'⟩
      have h1 := b2' n hn ht'
      have h2 := hspread n hn b hb (ht'.trans hbt.symm)
      simp only [ht, if_false]
      refine ⟨?_, by omega⟩
      rw [wrap64_eq_self _ (by unfold MaxInt; omega) (by omega)]
  have hnodes : sc.State.Nodes = sc.liveNodes.map (normalizedRecord dc dv) := by
    rw [State_eq_map, hdc, hdv]
    exact List.map_congr_left (fun n hn => (hrec n hn).1)
  refine ⟨dc, dv, hnodes, a2, exC, b2', exV, ?_, ?_, ?_⟩
  · intro r hr
    rw [hnodes, List.mem_map] at hr
    obtain ⟨n, hn, e⟩ := hr
    rw [← e]
    exact (hrec n hn).2
  · intro t ht
    cases t with
    | CheckNode =>
      obtain ⟨n, hn, hnt, hni⟩ := exC ht
      refine ⟨normalizedRecord dc dv n, ?_, hnt, ?_⟩
      · rw [hnodes]; exact List.mem_map_of_mem _ hn
      · simp [normalizedRecord, hnt, hni]
    | VarNode =>
      obtain ⟨n, hn, hnt, hni⟩ := exV ht
      refine ⟨normalizedRecord dc dv n, ?_, hnt, ?_⟩
      · rw [hnodes]; exact List.mem_map_of_mem _ hn
      · simp [normalizedRecord, hnt, hni]
  · intro a _ b _ hab
    simp only [normalizedRecord, hab]
    omega

theorem indicesFit_canvasTwoNodes : canvasTwoNodes.indicesFit := by
  constructor
  · intro n hn
    have h : n ∈ canvasTwoNodes.heap := by
      simpa [svgCanvas.liveNodes, canvasTwoNodes] using hn
    simp [canvasTwoNodes] at h
    rcases h with h | h <;> subst h <;> decide
  · intro a ha b hb _
    have h1 : a ∈ canvasTwoNodes.heap := by
      simpa [svgCanvas.liveNodes, canvasTwoNodes] using ha
    have h2 : b ∈ canvasTwoNodes.heap := by
      simpa [svgCanvas.liveNodes, canvasTwoNodes] using hb
    simp [canvasTwoNodes] at h1 h2
    rcases h1 with h1 | h1 <;> rcases h2 with h2 | h2 <;> subst h1 <;> subst h2 <;> decide

theorem indicesFit_canvasGap : canvasGap.indicesFit := by
  constructor
  · intro n hn
    have h : n ∈ canvasGap.heap := by
      simpa [svgCanvas.liveNodes, canvasGap] using hn
    simp [canvasGap] at h
    rcases h with h | h | h <;> subst h <;> decide
  · intro a ha b hb _
    have h1 : a ∈ canvasGap.heap := by
      simpa [svgCanvas.liveNodes, canvasGap] using ha
    have h2 : b ∈ canvasGap.heap := by
      simpa [svgCanvas.liveNodes, canvasGap] using hb
    simp [canvasGap] at h1 h2
    rcases h1 with h1 | h1 | h1 <;> rcases h2 with h2 | h2 | h2 <;> subst h1 <;> subst h2 <;>
      decide

/-- Instance of State_normalizes_index on canvasGap, whose CheckNodes have the raw
indices 2 and 5 and whose VarNode has the raw Index 3: the indices fit, the
export has one record per live node with the indices 0, 3 and 0 and the cells
unchanged, the smallest raw Index of the CheckNodes is 2 and that of the
VarNodes is 3, and no exported Index is negative. -/
theorem State_normalizes_index_witness :
    canvasGap.indicesFit ∧
    canvasGap.liveNodes.map (fun n => (n.NodeType, n.Index, n.X, n.Y)) =
      [(NodeType.CheckNode, 2, 0, 0), (NodeType.CheckNode, 5, 1, 0),
        (NodeType.VarNode, 3, 2, 0)] ∧
    canvasGap.State.Nodes.map (fun r => (r.Type', r.Index, r.X, r.Y)) =
      [(NodeType.CheckNode, 0, 0, 0), (NodeType.CheckNode, 3, 1, 0),
        (NodeType.VarNode, 0, 2, 0)] ∧
    canvasGap.State.Nodes = canvasGap.liveNodes.map (normalizedRecord 2 3) ∧
    (∀ r ∈ canvasGap.State.Nodes, 0 ≤ r.Index) ∧
    (∀ t : NodeType, (∃ n ∈ canvasGap.liveNodes, n.NodeType = t) →
      ∃ r ∈ canvasGap.State.Nodes, r.Type' = t ∧ r.Index = 0) := by
  obtain ⟨dc, dv, _, _, _, _, _, q6, q7, _⟩ :=
    State_normalizes_index canvasGap indicesFit_canvasGap
  exact ⟨indicesFit_canvasGap, rfl, rfl, rfl, q6, q7⟩

/-- C15.  On canvasFarIndices, whose two CheckNodes have the raw indices
2^63 - 1 and -2^63, the 64-bit subtraction of State wraps: the export gives the
first node the Index -1 and the second the Index 0.  An exported Index is
negative, and the exported indices differ by -1 while the raw indices differ by
2^64 - 1. -/
theorem State_wraps_far_indices :
    canvasFarIndices.liveNodes.map (fun n => (n.NodeType, n.Index)) =
      [(NodeType.CheckNode, MaxInt), (NodeType.CheckNode, -MaxInt - 1)] ∧
    canvasFarIndices.State.Nodes.map (fun r => (r.Type', r.Index)) =
      [(NodeType.CheckNode, -1), (NodeType.CheckNode, 0)] ∧
    ¬ (∀ r ∈ canvasFarIndices.State.Nodes, 0 ≤ r.Index) := by
  refine ⟨rfl, rfl, ?_⟩
  intro hall
  have h := hall { Connections := [], Index := -1, X := 0, Y := 0, Type' := NodeType.CheckNode }
    (List.mem_cons_self _ _)
  exact absurd h (by decide)

/-! ## Import: the node-creation pass -/

theorem nodup_map_index_inj {α β : Type} (f : α → β) (l : List α) (hnd : (l.map f).Nodup)
    (i j : Nat) (a b : α) (hi : l[i]? = some a) (hj : l[j]? = some b) (hf : f a = f b) :
    i = j := by
  have hlt : i < (l.map f).length := by
    rw [List.length_map]
    rcases Nat.lt_or_ge i l.length with h1 | h1
    · exact h1
    · rw [List.getElem?_eq_none h1] at hi; cases hi
  apply List.getElem?_inj hlt hnd
  rw [List.getElem?_map, List.getElem?_map, hi, hj]
  simp [hf]

theorem getElem?_concat_cases {α : Type} (l : List α) (a b : α) (j : Nat)
    (h : (l ++ [a])[j]? = some b) : (j < l.length ∧ l[j]? = some b) ∨ (j = l.length ∧ b = a) := by
  rcases Nat.lt_or_ge j l.length with h1 | h1
  · rw [List.getElem?_append_left h1] at h
    exact Or.inl ⟨h1, h⟩
  · rw [List.getElem?_append_right h1] at h
    cases hd : j - l.length with
    | zero =>
      rw [hd] at h
      simp at h
      exact Or.inr ⟨by omega, h.symm⟩
    | succ d =>
      rw [hd] at h
      simp at h

theorem CreateInv_step (h0 : List Node) (pre : List nodeJson) (sc : svgCanvas)
    (vars checks : List (Int × Option Ptr)) (r : nodeJson)
    (hinv : CreateInv h0 pre sc vars checks)
    (hcell : ((pre ++ [r]).map (fun r => (r.X, r.Y))).Nodup)
    (hid : ((pre ++ [r]).map (fun r => (r.Type', r.Index))).Nodup) :
    CreateInv h0 (pre ++ [r]) (sc.createNode r.Type' r.Index r.X r.Y).1
      (if r.Type' = NodeType.VarNode then
        mapSet vars r.Index (sc.createNode r.Type' r.Index r.X r.Y).2 else vars)
      (if r.Type' = NodeType.VarNode then checks
        else mapSet checks r.Index (sc.createNode r.Type' r.Index r.X r.Y).2) := by
  obtain ⟨i1, i2, i3, i4, i5, i6⟩ := hinv
  have hfree : mapGet? sc.posToNode (r.X, r.Y) = none := by
    cases hg : mapGet? sc.posToNode (r.X, r.Y) with
    | none => rfl
    | some q =>
      have hmem := (i3 (r.X, r.Y)).1 (by simp [hg])
      rw [List.map_append, List.nodup_append] at hcell
      exact absurd (hcell.2.2 hmem (by simp)) id
  have hlen : sc.heap.length = h0.length + pre.length := by
    rw [i1, List.length_append, List.length_map]
  have hlast : (pre ++ [r])[pre.length]? = some r := by
    rw [List.getElem?_append_right (Nat.le_refl _)]
    simp
  have hold : ∀ (j : Nat) (r' : nodeJson), j < pre.length → pre[j]? = some r' →
      r'.Type' = r.Type' → r'.Index ≠ r.Index := by
    intro j r' hj hr' ht hi
    have h1 : (pre ++ [r])[j]? = some r' := by
      rw [List.getElem?_append_left hj]; exact hr'
    have := nodup_map_index_inj (fun r => (r.Type', r.Index)) (pre ++ [r]) hid j pre.length
      r' r h1 hlast (by simp [ht, hi])
    omega
  rw [createNode_free sc r.Type' r.Index r.X r.Y hfree]
  refine ⟨?_, ?_, ?_, i4, ?_, ?_⟩
  · simp only
    rw [i1, List.map_append, List.append_assoc]
    rfl
  · simp only
    rw [i2, hlen, List.length_append, List.length_singleton, List.range'_concat]
    simp
  · intro cell
    simp only
    rw [mapGet?_mapSet, List.map_append, List.mem_append]
    by_cases hc : cell = (r.X, r.Y)
    · simp [hc]
    · rw [if_neg hc, i3 cell]
      simp [hc]
  · intro j r' hj ht
    simp only
    rcases getElem?_concat_cases pre r r' j hj with ⟨hlt, hj'⟩ | ⟨hjl, hr'⟩
    · by_cases hv : r.Type' = NodeType.VarNode
      · rw [if_pos hv, mapGet?_mapSet, if_neg (hold j r' hlt hj' (ht.trans hv.symm))]
        exact i5 j r' hj' ht
      · rw [if_neg hv]
        exact i5 j r' hj' ht
    · subst hr'
      rw [if_pos ht, mapGet?_mapSet, if_pos rfl, hlen, hjl]
  · intro j r' hj ht
    simp only
    rcases getElem?_concat_cases pre r r' j hj with ⟨hlt, hj'⟩ | ⟨hjl, hr'⟩
    · by_cases hv : r.Type' = NodeType.VarNode
      · rw [if_pos hv]
        exact i6 j r' hj' ht
      · have hc : r.Type' = NodeType.CheckNode := by
          cases hrt : r.Type' with
          | CheckNode => rfl
          | VarNode => exact absurd hrt hv
        rw [if_neg hv, mapGet?_mapSet, if_neg (hold j r' hlt hj' (ht.trans hc.symm))]
        exact i6 j r' hj' ht
    · subst hr'
      have hv : ¬ r'.Type' = NodeType.VarNode := by rw [ht]; decide
      rw [if_neg hv, mapGet?_mapSet, if_pos rfl, hlen, hjl]

theorem CreateInv_setStateCreate (h0 : List Node) (rest : List nodeJson) :
    ∀ (pre : List nodeJson) (sc : svgCanvas) (vars checks : List (Int × Option Ptr)),
      CreateInv h0 pre sc vars checks →
      ((pre ++ rest).map (fun r => (r.X, r.Y))).Nodup →
      ((pre ++ rest).map (fun r => (r.Type', r.Index))).Nodup →
      CreateInv h0 (pre ++ rest) (setStateCreate sc rest vars checks).1
        (setStateCreate sc rest vars checks).2.1 (setStateCreate sc rest vars checks).2.2 := by
  induction rest with
  | nil =>
    intro pre sc vars checks hinv _ _
    simpa [setStateCreate] using hinv
  | cons r rest ih =>
    intro pre sc vars checks hinv hcell hid
    have e : pre ++ r :: rest = (pre ++ [r]) ++ rest := by simp
    rw [e] at hcell hid ⊢
    have hcell1 : ((pre ++ [r]).map (fun r => (r.X, r.Y))).Nodup := by
      rw [List.map_append] at hcell
      exact (List.nodup_append.1 hcell).1
    have hid1 : ((pre ++ [r]).map (fun r => (r.Type', r.Index))).Nodup := by
      rw [List.map_append] at hid
      exact (List.nodup_append.1 hid).1
    have hstep := CreateInv_step h0 pre sc vars checks r hinv hcell1 hid1
    unfold setStateCreate
    simp only
    by_cases hv : r.Type' = NodeType.VarNode
    · rw [if_pos hv]
      rw [if_pos hv, if_pos hv] at hstep
      exact ih _ _ _ _ hstep hcell hid
    · rw [if_neg hv]
      rw [if_neg hv, if_neg hv] at hstep
      exact ih _ _ _ _ hstep hcell hid

/-! ## Import: the wiring pass -/

theorem WireInv_congr (base : Nat) (recs : List nodeJson) (P Q : Nat → Int → Prop)
    (hw : List Node) (hPQ : ∀ i x, P i x ↔ Q i x) (h : WireInv base recs P hw) :
    WireInv base recs Q hw := by
  obtain ⟨h1, h2, h3, h4⟩ := h
  refine ⟨h1, h2, ?_, ?_⟩
  · intro i j rc rv nc a1 a2 a3 a4 a5
    exact (h3 i j rc rv nc a1 a2 a3 a4 a5).trans (hPQ _ _)
  · intro i j rc rv nv a1 a2 a3 a4 a5
    exact (h4 i j rc rv nv a1 a2 a3 a4 a5).trans (hPQ _ _)

theorem record_index_unique (recs : List nodeJson)
    (hid : (recs.map (fun r => (r.Type', r.Index))).Nodup) (a b : Nat) (ra rb : nodeJson)
    (ha : recs[a]? = some ra) (hb : recs[b]? = some rb) (ht : ra.Type' = rb.Type')
    (hi : ra.Index = rb.Index) : a = b :=
  nodup_map_index_inj (fun r => (r.Type', r.Index)) recs hid a b ra rb ha hb (by simp [ht, hi])

theorem check_ne_var_position (recs : List nodeJson) (a b : Nat) (ra rb : nodeJson)
    (ha : recs[a]? = some ra) (hb : recs[b]? = some rb)
    (hta : ra.Type' = NodeType.CheckNode) (htb : rb.Type' = NodeType.VarNode) : a ≠ b := by
  intro e
  subst e
  rw [ha] at hb
  cases hb
  rw [hta] at htb
  cases htb

theorem ConnectTo_check_var (h : List Node) (c v : Ptr) (nc nv : Node)
    (hc : h[c]? = some nc) (hv : h[v]? = some nv)
    (hct : nc.NodeType = NodeType.CheckNode) (hvt : nv.NodeType = NodeType.VarNode) :
    (mapGet? nc.Connections nv.Index = none →
      ∃ h1 cc cv, Node.ConnectTo h (some c) (some v) = (Res.ok true, h1) ∧
        Node.ConnectTo h (some v) (some c) = (Res.ok true, h1) ∧
        h1.length = h.length ∧
        h1[c]? = some { nc with Connections := cc } ∧
        h1[v]? = some { nv with Connections := cv } ∧
        (∀ k, mapGet? cc k = if k = nv.Index then some v else mapGet? nc.Connections k) ∧
        (∀ k, mapGet? cv k = if k = nc.Index then some c else mapGet? nv.Connections k) ∧
        (∀ r, r ≠ c → r ≠ v → h1[r]? = h[r]?)) ∧
    ((mapGet? nc.Connections nv.Index).isSome = true →
      Node.ConnectTo h (some c) (some v) = (Res.ok false, h) ∧
      Node.ConnectTo h (some v) (some c) = (Res.ok false, h)) := by
  have hne : c ≠ v := by
    intro e
    subst e
    rw [hc] at hv
    cases hv
    rw [hct] at hvt
    cases hvt
  obtain ⟨e1, e2⟩ := ConnectTo_eq_connectFromCheck h c v nc nv hc hv hct hvt
  refine ⟨?_, ConnectTo_recorded h c v nc nv hc hv hct hvt⟩
  intro hnew
  obtain ⟨h1, q1, q2, q3, q4, q5⟩ := connectFromCheck_new h c v nc nv hc hv hne hnew
  exact ⟨h1, _, _, e1.trans q1, e2.trans q1, q2, q3, q4,
    fun k => mapGet?_mapSet _ _ _ _, fun k => mapGet?_mapSet _ _ _ _, q5⟩

theorem WireInv_ConnectTo (base : Nat) (recs : List nodeJson)
    (hid : (recs.map (fun r => (r.Type', r.Index))).Nodup) (P : Nat → Int → Prop)
    (hw : List Node) (hinv : WireInv base recs P hw) (i j : Nat) (rc rv : nodeJson)
    (hi : recs[i]? = some rc) (hj : recs[j]? = some rv)
    (hct : rc.Type' = NodeType.CheckNode) (hvt : rv.Type' = NodeType.VarNode) :
    ∃ (b : Bool) (hw1 : List Node),
      Node.ConnectTo hw (some (base + i)) (some (base + j)) = (Res.ok b, hw1) ∧
      WireInv base recs (fun i' x => P i' x ∨ (i' = i ∧ x = rv.Index)) hw1 := by
  obtain ⟨hlen, hst, hck, hvr⟩ := hinv
  obtain ⟨nc, hnc, tc, ic, xc, yc, sc'⟩ := hst i rc hi
  obtain ⟨nv, hnv, tv, iv, xv, yv, sv'⟩ := hst j rv hj
  have contract := ConnectTo_check_var hw (base + i) (base + j) nc nv hnc hnv
    (tc.trans hct) (tv.trans hvt)
  have hij : i ≠ j := check_ne_var_position recs i j rc rv hi hj hct hvt
  cases hg : mapGet? nc.Connections nv.Index with
  | some q =>
    obtain ⟨e1, _⟩ := contract.2 (by simp [hg])
    refine ⟨false, hw, e1, ?_⟩
    apply WireInv_congr base recs P _ hw _ ⟨hlen, hst, hck, hvr⟩
    intro i' x
    constructor
    · intro h; exact Or.inl h
    · rintro (h | ⟨h1, h2⟩)
      · exact h
      · subst h1 h2
        exact (hck i' j rc rv nc hi hj hct hvt hnc).1 (by rw [← iv, hg]; rfl)
  | none =>
    obtain ⟨h1, cc, cv, e1, _, q3, q4, q5, q6, q7, q8⟩ := contract.1 hg
    refine ⟨true, h1, e1, ?_, ?_, ?_, ?_⟩
    · rw [q3]; exact hlen
    · intro i' r hr
      obtain ⟨n, hn, t1, t2, t3, t4, t5⟩ := hst i' r hr
      by_cases ei : i' = i
      · subst ei
        rw [hnc] at hn
        cases hn
        exact ⟨_, q4, t1, t2, t3, t4, t5⟩
      · by_cases ej : i' = j
        · subst ej
          rw [hnv] at hn
          cases hn
          exact ⟨_, q5, t1, t2, t3, t4, t5⟩
        · refine ⟨n, ?_, t1, t2, t3, t4, t5⟩
          have g1 : base + i' ≠ base + i := by omega
          have g2 : base + i' ≠ base + j := by omega
          rw [q8 (base + i') g1 g2]
          exact hn
    · intro i' j' rc' rv' nc' a1 a2 a3 a4 a5
      by_cases ei : i' = i
      · subst ei
        rw [hi] at a1
        cases a1
        rw [q4] at a5
        cases a5
        simp only
        rw [q6, iv]
        by_cases ex : rv'.Index = rv.Index
        · simp [ex]
        · rw [if_neg ex]
          have := hck i' j' rc rv' nc hi a2 hct a4 hnc
          simp [ex, this]
      · have ej : i' ≠ j := check_ne_var_position recs i' j rc' rv a1 hj a3 hvt
        have g1 : base + i' ≠ base + i := by omega
        have g2 : base + i' ≠ base + j := by omega
        rw [q8 (base + i') g1 g2] at a5
        have := hck i' j' rc' rv' nc' a1 a2 a3 a4 a5
        simp [ei, this]
    · intro i' j' rc' rv' nv' a1 a2 a3 a4 a5
      by_cases ej : j' = j
      · subst ej
        rw [hj] at a2
        cases a2
        rw [q5] at a5
        cases a5
        simp only
        rw [q7, ic]
        by_cases ex : rc'.Index = rc.Index
        · have ei : i' = i :=
            record_index_unique recs hid i' i rc' rc a1 hi (a3.trans hct.symm) ex
          simp [ex, ei]
        · have ei : i' ≠ i := by
            intro e
            subst e
            rw [hi] at a1
            cases a1
            exact ex rfl
          rw [if_neg ex]
          have := hvr i' j' rc' rv nv a1 hj a3 hvt hnv
          simp [ei, this]
      · have ei : j' ≠ i := fun e =>
          check_ne_var_position recs i j' rc rv' hi a2 hct a4 e.symm
        have g1 : base + j' ≠ base + i := by omega
        have g2 : base + j' ≠ base + j := by omega
        rw [q8 (base + j') g1 g2] at a5
        have := hvr i' j' rc' rv' nv' a1 a2 a3 a4 a5
        have ex : ¬ rv'.Index = rv.Index := fun e =>
          ej (record_index_unique recs hid j' j rv' rv a2 hj (a4.trans hvt.symm) e)
        simp [ex, this]

theorem exists_position_of_mem {α : Type} (l : List α) (a : α) (h : a ∈ l) :
    ∃ j : Nat, l[j]? = some a := by
  obtain ⟨j, hj, e⟩ := List.getElem_of_mem h
  exact ⟨j, by rw [List.getElem?_eq_getElem hj, e]⟩

theorem getElem?_lt_of_eq_some' {α : Type} {l : List α} {i : Nat} {a : α}
    (h : l[i]? = some a) : i < l.length := by
  rcases Nat.lt_or_ge i l.length with h1 | h1
  · exact h1
  · rw [List.getElem?_eq_none h1] at h; cases h

theorem WireInv_setStateConnect (base : Nat) (recs : List nodeJson)
    (hid : (recs.map (fun r => (r.Type', r.Index))).Nodup)
    (vars : List (Int × Option Ptr))
    (hvars : ∀ (j : Nat) (r : nodeJson), recs[j]? = some r → r.Type' = NodeType.VarNode →
      mapGet? vars r.Index = some (some (base + j)))
    (i : Nat) (rc : nodeJson) (hi : recs[i]? = some rc) (hct : rc.Type' = NodeType.CheckNode)
    (cs : List Int) :
    ∀ (P : Nat → Int → Prop) (hw : List Node), WireInv base recs P hw →
      (∀ c ∈ cs, ∃ v ∈ recs, v.Type' = NodeType.VarNode ∧ v.Index = c) →
      ∃ hw1, setStateConnect vars (some (base + i)) hw cs = (Res.ok (), hw1) ∧
        WireInv base recs (fun i' x => P i' x ∨ (i' = i ∧ x ∈ cs)) hw1 := by
  induction cs with
  | nil =>
    intro P hw hinv _
    refine ⟨hw, rfl, ?_⟩
    apply WireInv_congr base recs P _ hw _ hinv
    intro i' x
    simp
  | cons c cs ih =>
    intro P hw hinv hcs
    obtain ⟨rv, hrv, hvt, hvi⟩ := hcs c (List.mem_cons_self _ _)
    obtain ⟨j, hj⟩ := exists_position_of_mem recs rv hrv
    obtain ⟨b, hw1, e1, hinv1⟩ := WireInv_ConnectTo base recs hid P hw hinv i j rc rv hi hj hct hvt
    obtain ⟨hw2, e2, hinv2⟩ := ih _ hw1 hinv1 (fun c' hc' => hcs c' (List.mem_cons_of_mem _ hc'))
    refine ⟨hw2, ?_, ?_⟩
    · unfold setStateConnect
      have hl : (mapGet? vars c).join = some (base + j) := by
        rw [← hvi, hvars j rv hj hvt]
        rfl
      rw [hl, e1]
      exact e2
    · apply WireInv_congr base recs _ _ hw2 _ hinv2
      intro i' x
      simp only [List.mem_cons, hvi]
      constructor
      · rintro ((h | ⟨h1, h2⟩) | ⟨h1, h2⟩)
        · exact Or.inl h
        · exact Or.inr ⟨h1, Or.inl h2⟩
        · exact Or.inr ⟨h1, Or.inr h2⟩
      · rintro (h | ⟨h1, h2 | h2⟩)
        · exact Or.inl (Or.inl h)
        · exact Or.inl (Or.inr ⟨h1, h2⟩)
        · exact Or.inr ⟨h1, h2⟩

theorem WireInv_setStateWire (base : Nat) (recs : List nodeJson)
    (hid : (recs.map (fun r => (r.Type', r.Index))).Nodup)
    (hconn : ∀ r ∈ recs, r.Type' = NodeType.CheckNode → ∀ c ∈ r.Connections,
      ∃ v ∈ recs, v.Type' = NodeType.VarNode ∧ v.Index = c)
    (vars checks : List (Int × Option Ptr))
    (hvars : ∀ (j : Nat) (r : nodeJson), recs[j]? = some r → r.Type' = NodeType.VarNode →
      mapGet? vars r.Index = some (some (base + j)))
    (hchecks : ∀ (j : Nat) (r : nodeJson), recs[j]? = some r → r.Type' = NodeType.CheckNode →
      mapGet? checks r.Index = some (some (base + j)))
    (rest : List nodeJson) :
    ∀ (pre : List nodeJson) (P : Nat → Int → Prop) (hw : List Node), recs = pre ++ rest →
      WireInv base recs P hw →
      ∃ hw1, setStateWire vars checks hw rest = (Res.ok (), hw1) ∧
        WireInv base recs (fun i x => P i x ∨ (pre.length ≤ i ∧
          ∃ r, recs[i]? = some r ∧ r.Type' = NodeType.CheckNode ∧ x ∈ r.Connections)) hw1 := by
  induction rest with
  | nil =>
    intro pre P hw hrecs hinv
    refine ⟨hw, rfl, ?_⟩
    apply WireInv_congr base recs P _ hw _ hinv
    intro i x
    constructor
    · intro h; exact Or.inl h
    · rintro (h | ⟨h1, r, h2, _⟩)
      · exact h
      · have : i < recs.length := getElem?_lt_of_eq_some' h2
        rw [hrecs] at this
        simp at this
        omega
  | cons r rest ih =>
    intro pre P hw hrecs hinv
    have hrecs1 : recs = (pre ++ [r]) ++ rest := by rw [hrecs]; simp
    have hr : recs[pre.length]? = some r := by
      rw [hrecs, List.getElem?_append_right (Nat.le_refl _)]
      simp
    have hlen1 : (pre ++ [r]).length = pre.length + 1 := by simp
    unfold setStateWire
    by_cases hv : r.Type' = NodeType.VarNode
    · rw [if_pos hv]
      obtain ⟨hw1, e1, hinv1⟩ := ih (pre ++ [r]) P hw hrecs1 hinv
      refine ⟨hw1, e1, ?_⟩
      apply WireInv_congr base recs _ _ hw1 _ hinv1
      intro i x
      rw [hlen1]
      constructor
      · rintro (h | ⟨h1, r', h2, h3, h4⟩)
        · exact Or.inl h
        · exact Or.inr ⟨by omega, r', h2, h3, h4⟩
      · rintro (h | ⟨h1, r', h2, h3, h4⟩)
        · exact Or.inl h
        · refine Or.inr ⟨?_, r', h2, h3, h4⟩
          rcases Nat.lt_or_ge pre.length i with hlt | hge
          · omega
          · have e : i = pre.length := by omega
            subst e
            rw [hr] at h2
            cases h2
            rw [h3] at hv
            cases hv
    · have hc : r.Type' = NodeType.CheckNode := by
        cases hrt : r.Type' with
        | CheckNode => rfl
        | VarNode => exact absurd hrt hv
      rw [if_neg hv]
      have hl : (mapGet? checks r.Index).join = some (base + pre.length) := by
        rw [hchecks pre.length r hr hc]
        rfl
      rw [hl]
      have hmem : r ∈ recs := by rw [hrecs]; simp
      obtain ⟨hw1, e1, hinv1⟩ := WireInv_setStateConnect base recs hid vars hvars pre.length r
        hr hc r.Connections P hw hinv (hconn r hmem hc)
      rw [e1]
      obtain ⟨hw2, e2, hinv2⟩ := ih (pre ++ [r]) _ hw1 hrecs1 hinv1
      refine ⟨hw2, e2, ?_⟩
      apply WireInv_congr base recs _ _ hw2 _ hinv2
      intro i x
      rw [hlen1]
      constructor
      · rintro ((h | ⟨h1, h2⟩) | ⟨h1, r', h2, h3, h4⟩)
        · exact Or.inl h
        · exact Or.inr ⟨by omega, r, by rw [h1]; exact hr, hc, h2⟩
        · exact Or.inr ⟨by omega, r', h2, h3, h4⟩
      · rintro (h | ⟨h1, r', h2, h3, h4⟩)
        · exact Or.inl (Or.inl h)
        · rcases Nat.lt_or_ge pre.length i with hlt | hge
          · exact Or.inr ⟨by omega, r', h2, h3, h4⟩
          · have e : i = pre.length := by omega
            subst e
            rw [hr] at h2
            cases h2
            exact Or.inl (Or.inr ⟨rfl, h4⟩)

/-! ## Import: the contract of SetState -/

theorem filterMap_range'_eq_drop (k : Nat) :
    ∀ (base : Nat) (h : List Node), h.length = base + k →
      (List.range' base k).filterMap (fun p => h[p]?) = h.drop base := by
  induction k with
  | zero =>
    intro base h hlen
    simp only [List.range'_zero, List.filterMap_nil]
    exact (List.drop_eq_nil_of_le (by omega)).symm
  | succ k ih =>
    intro base h hlen
    have hlt : base < h.length := by omega
    rw [List.range'_succ, List.filterMap_cons, List.getElem?_eq_getElem hlt]
    simp only
    rw [ih (base + 1) h (by omega), List.drop_eq_getElem_cons hlt]

theorem CreateInv_nil (sc : svgCanvas) :
    CreateInv sc.heap []
      { sc with
        selectedNode := none
        keys := []
        nodes := []
        nodeMap := []
        posToNode := []
        nodeTypeCounts := [(NodeType.CheckNode, 0), (NodeType.VarNode, 0)] } [] [] := by
  refine ⟨by simp, by simp, ?_, rfl, ?_, ?_⟩
  · intro cell
    simp [mapGet?]
  · intro j r hj
    simp at hj
  · intro j r hj
    simp at hj

theorem WireInv_initial (h0 : List Node) (recs : List nodeJson) :
    WireInv h0.length recs (fun _ _ => False) (h0 ++ recs.map nodeOfRecord) := by
  have look : ∀ (i : Nat) (r : nodeJson), recs[i]? = some r →
      (h0 ++ recs.map nodeOfRecord)[h0.length + i]? = some (nodeOfRecord r) := by
    intro i r hi
    rw [List.getElem?_append_right (by omega)]
    simp [hi]
  refine ⟨by simp, ?_, ?_, ?_⟩
  · intro i r hi
    exact ⟨nodeOfRecord r, look i r hi, rfl, rfl, rfl, rfl, rfl⟩
  · intro i j rc rv nc hi _ _ _ hnc
    rw [look i rc hi] at hnc
    cases hnc
    simp [nodeOfRecord, mapGet?]
  · intro i j rc rv nv _ hj _ _ hnv
    rw [look j rv hj] at hnv
    cases hnv
    simp [nodeOfRecord, mapGet?]

/-- C16.  For a well-formed payload SetState returns normally.  The new node
list has one freshly allocated node per record, in the order of the records,
with the record's Type, Index, X and Y and the selection flag off; nothing is
selected; and for a CheckNode record and a VarNode record the CheckNode holds
the Index of the VarNode, and the VarNode the Index of the CheckNode, if and
only if the Index of the VarNode record is listed in the Connections of the
CheckNode record. -/
theorem SetState_imports (sc : svgCanvas) (state : svgCanvasJson)
    (hwf : WellFormedPayload state.Nodes) :
    ∃ sc1 : svgCanvas, sc.SetState state = Res.ok sc1 ∧
      sc1.selectedNode = none ∧
      sc1.nodes.length = state.Nodes.length ∧
      (∀ p ∈ sc1.nodes, sc.heap[p]? = none) ∧
      sc1.liveNodes.map (fun n => (n.NodeType, n.Index, n.X, n.Y, n.Selected)) =
        state.Nodes.map (fun r => (r.Type', r.Index, r.X, r.Y, false)) ∧
      (∀ (i j : Nat) (rc rv : nodeJson) (c v : Node),
        state.Nodes[i]? = some rc → state.Nodes[j]? = some rv →
        sc1.liveNodes[i]? = some c → sc1.liveNodes[j]? = some v →
        rc.Type' = NodeType.CheckNode → rv.Type' = NodeType.VarNode →
        ((c.connectedTo v = true ↔ rv.Index ∈ rc.Connections) ∧
          (v.connectedTo c = true ↔ rv.Index ∈ rc.Connections))) := by
  obtain ⟨hcell, hid, hconn⟩ := hwf
  have hcreate := CreateInv_setStateCreate sc.heap state.Nodes [] _ [] []
    (CreateInv_nil sc) (by simpa using hcell) (by simpa using hid)
  simp only [List.nil_append] at hcreate
  generalize hres : setStateCreate
      { sc with
        selectedNode := none
        keys := []
        nodes := []
        nodeMap := []
        posToNode := []
        nodeTypeCounts := [(NodeType.CheckNode, 0), (NodeType.VarNode, 0)] }
      state.Nodes [] [] = res at hcreate
  obtain ⟨c1, c2, _, c4, c5, c6⟩ := hcreate
  have hinit : WireInv sc.heap.length state.Nodes (fun _ _ => False) res.1.heap := by
    rw [c1]
    exact WireInv_initial sc.heap state.Nodes
  obtain ⟨hw1, e1, hinv⟩ := WireInv_setStateWire sc.heap.length state.Nodes hid hconn
    res.2.1 res.2.2 c5 c6 state.Nodes [] _ res.1.heap (by simp) hinit
  obtain ⟨w1, w2, w3, w4⟩ := hinv
  have hlive : svgCanvas.liveNodes { res.1 with heap := hw1 } = hw1.drop sc.heap.length := by
    show List.filterMap _ res.1.nodes = _
    rw [c2]
    exact filterMap_range'_eq_drop _ _ _ w1
  have hdone : ∀ (i : Nat) (rc : nodeJson) (x : Int), state.Nodes[i]? = some rc →
      ((False ∨ (([] : List nodeJson).length ≤ i ∧ ∃ r, state.Nodes[i]? = some r ∧
        r.Type' = NodeType.CheckNode ∧ x ∈ r.Connections)) ↔
        (rc.Type' = NodeType.CheckNode ∧ x ∈ rc.Connections)) := by
    intro i rc x hi
    constructor
    · rintro (h | ⟨_, r, h2, h3, h4⟩)
      · exact absurd h id
      · rw [hi] at h2
        cases h2
        exact ⟨h3, h4⟩
    · rintro ⟨h3, h4⟩
      exact Or.inr ⟨Nat.zero_le _, rc, hi, h3, h4⟩
  refine ⟨{ res.1 with heap := hw1 }, ?_, c4, ?_, ?_, ?_, ?_⟩
  · unfold svgCanvas.SetState
    simp only
    rw [hres, e1]
  · show res.1.nodes.length = _
    rw [c2, List.length_range']
  · intro p hp
    have hp' : p ∈ List.range' sc.heap.length state.Nodes.length := by
      rw [← c2]; exact hp
    rw [List.mem_range'] at hp'
    obtain ⟨i, _, e⟩ := hp'
    exact List.getElem?_eq_none (by omega)
  · rw [hlive]
    apply List.ext_getElem?
    intro i
    rw [List.getElem?_map, List.getElem?_map, List.getElem?_drop]
    cases hi : state.Nodes[i]? with
    | none =>
      have hge : state.Nodes.length ≤ i := by
        rcases Nat.lt_or_ge i state.Nodes.length with h1 | h1
        · rw [List.getElem?_eq_getElem h1] at hi; cases hi
        · exact h1
      rw [List.getElem?_eq_none (by omega)]
      rfl
    | some r =>
      obtain ⟨n, hn, t1, t2, t3, t4, t5⟩ := w2 i r hi
      rw [hn]
      simp [t1, t2, t3, t4, t5]
  · intro i j rc rv c v hi hj hc hv hct hvt
    rw [hlive, List.getElem?_drop] at hc hv
    obtain ⟨nc, hnc, _, ic, _⟩ := w2 i rc hi
    obtain ⟨nv, hnv, _, iv, _⟩ := w2 j rv hj
    rw [hc] at hnc
    rw [hv] at hnv
    cases hnc
    cases hnv
    have k1 := w3 i j rc rv c hi hj hct hvt hc
    have k2 := w4 i j rc rv v hi hj hct hvt hv
    have k3 := hdone i rc rv.Index hi
    unfold Node.connectedTo
    rw [iv, ic]
    constructor
    · exact (k1.trans k3).trans (by simp [hct])
    · exact (k2.trans k3).trans (by simp [hct])

theorem WellFormedPayload_payloadTwoNodes : WellFormedPayload payloadTwoNodes.Nodes := by
  unfold WellFormedPayload payloadTwoNodes
  decide

/-- Instance of SetState_imports: the two-record payload is well formed, and on
the mounted canvas SetState turns it into two nodes and no selection. -/
theorem SetState_imports_witness :
    WellFormedPayload payloadTwoNodes.Nodes ∧
    ∃ sc1 : svgCanvas, canvasMounted.SetState payloadTwoNodes = Res.ok sc1 ∧
      sc1.selectedNode = none ∧ sc1.nodes.length = 2 := by
  obtain ⟨sc1, q1, q2, q3, _⟩ :=
    SetState_imports canvasMounted payloadTwoNodes WellFormedPayload_payloadTwoNodes
  exact ⟨WellFormedPayload_payloadTwoNodes, sc1, q1, q2, q3⟩

/-! ## Node registry: deletion -/

theorem mem_iff_exists_getElem? {α : Type} (l : List α) (a : α) :
    a ∈ l ↔ ∃ k : Nat, l[k]? = some a := by
  constructor
  · intro h
    exact exists_position_of_mem l a h
  · rintro ⟨k, hk⟩
    have hlt : k < l.length := getElem?_lt_of_eq_some' hk
    rw [List.getElem?_eq_getElem hlt] at hk
    cases hk
    exact List.getElem_mem hlt

theorem mem_swap_remove (l : List Ptr) (i : Nat) (x last : Ptr)
    (hi : l[i]? = some x) (honce : ∀ k : Nat, l[k]? = some x → k = i)
    (hlast : l.getLast? = some last) (q : Ptr) :
    q ∈ (l.set i last).dropLast ↔ q ∈ l ∧ q ≠ x := by
  have hil : i < l.length := getElem?_lt_of_eq_some' hi
  rw [List.getLast?_eq_getElem?] at hlast
  have look : ∀ k : Nat, ((l.set i last).dropLast)[k]? =
      if k < l.length - 1 then (if i = k then some last else l[k]?) else none := by
    intro k
    rw [List.getElem?_dropLast, List.length_set, List.getElem?_set]
    by_cases hk : k < l.length - 1
    · simp only [if_pos hk]
      by_cases hik : i = k
      · simp [hik, hil]
        omega
      · simp [hik]
    · simp [hk]
  rw [mem_iff_exists_getElem?, mem_iff_exists_getElem?]
  constructor
  · rintro ⟨k, hk⟩
    rw [look k] at hk
    by_cases hkl : k < l.length - 1
    · rw [if_pos hkl] at hk
      by_cases hik : i = k
      · rw [if_pos hik] at hk
        cases hk
        refine ⟨⟨l.length - 1, hlast⟩, ?_⟩
        intro e
        subst e
        have := honce _ hlast
        omega
      · rw [if_neg hik] at hk
        refine ⟨⟨k, hk⟩, ?_⟩
        intro e
        subst e
        exact hik (honce k hk).symm
    · rw [if_neg hkl] at hk
      cases hk
  · rintro ⟨⟨k, hk⟩, hne⟩
    have hkl : k < l.length := getElem?_lt_of_eq_some' hk
    have hik : i ≠ k := by
      intro e
      subst e
      rw [hi] at hk
      cases hk
      exact hne rfl
    by_cases hk1 : k < l.length - 1
    · refine ⟨k, ?_⟩
      rw [look k, if_pos hk1, if_neg hik]
      exact hk
    · have e : k = l.length - 1 := by omega
      subst e
      rw [hlast] at hk
      cases hk
      refine ⟨i, ?_⟩
      rw [look i, if_pos (by omega), if_pos rfl]

theorem indexFunc_some (h : List Node) (t : NodeType) (index : Int) (ps : List Ptr) :
    ∀ i : Nat, indexFunc h t index ps = some i →
      ∃ (q : Ptr) (m : Node), ps[i]? = some q ∧ h[q]? = some m ∧ m.NodeType = t ∧
        m.Index = index := by
  induction ps with
  | nil => intro i hi; simp [indexFunc] at hi
  | cons p ps ih =>
    intro i hi
    unfold indexFunc at hi
    cases hp : h[p]? with
    | none =>
      rw [hp] at hi
      simp only [Option.map_eq_some'] at hi
      obtain ⟨i', hi', e⟩ := hi
      subst e
      obtain ⟨q, m, h1, h2⟩ := ih i' hi'
      exact ⟨q, m, by simpa using h1, h2⟩
    | some del =>
      rw [hp] at hi
      simp only at hi
      by_cases hd : del.NodeType = t ∧ del.Index = index
      · rw [if_pos hd] at hi
        cases hi
        exact ⟨p, del, by simp, hp, hd.1, hd.2⟩
      · rw [if_neg hd] at hi
        simp only [Option.map_eq_some'] at hi
        obtain ⟨i', hi', e⟩ := hi
        subst e
        obtain ⟨q, m, h1, h2⟩ := ih i' hi'
        exact ⟨q, m, by simpa using h1, h2⟩

theorem indexFunc_none (h : List Node) (t : NodeType) (index : Int) (ps : List Ptr) :
    indexFunc h t index ps = none ↔
      ∀ q ∈ ps, ∀ m : Node, h[q]? = some m → ¬ (m.NodeType = t ∧ m.Index = index) := by
  induction ps with
  | nil => simp [indexFunc]
  | cons p ps ih =>
    unfold indexFunc
    cases hp : h[p]? with
    | none =>
      simp only [Option.map_eq_none', List.mem_cons]
      rw [ih]
      constructor
      · intro hall q hq m hm
        rcases hq with hq | hq
        · subst hq; rw [hp] at hm; cases hm
        · exact hall q hq m hm
      · intro hall q hq m hm
        exact hall q (Or.inr hq) m hm
    | some del =>
      simp only [List.mem_cons]
      by_cases hd : del.NodeType = t ∧ del.Index = index
      · rw [if_pos hd]
        constructor
        · intro h1; cases h1
        · intro hall
          exact absurd hd (hall p (Or.inl rfl) del hp)
      · rw [if_neg hd]
        simp only [Option.map_eq_none']
        rw [ih]
        constructor
        · intro hall q hq m hm
          rcases hq with hq | hq
          · subst hq; rw [hp] at hm; cases hm; exact hd
          · exact hall q hq m hm
        · intro hall q hq m hm
          exact hall q (Or.inr hq) m hm

theorem filterMap_getElem?_of_allocated (h : List Node) (ps : List Ptr)
    (halloc : ∀ p ∈ ps, ∃ m : Node, h[p]? = some m) :
    ∀ (i : Nat) (q : Ptr) (m : Node), ps[i]? = some q → h[q]? = some m →
      (ps.filterMap (fun p => h[p]?))[i]? = some m := by
  induction ps with
  | nil => intro i q m hi; simp at hi
  | cons p ps ih =>
    intro i q m hi hq
    obtain ⟨m0, hm0⟩ := halloc p (List.mem_cons_self _ _)
    rw [List.filterMap_cons, hm0]
    cases i with
    | zero =>
      simp at hi
      subst hi
      rw [hm0] at hq
      cases hq
      simp
    | succ i =>
      simp at hi
      simp only [List.getElem?_cons_succ]
      exact ih (fun p' hp' => halloc p' (List.mem_cons_of_mem _ hp')) i q m hi hq

theorem nodes_nodup_of_identities (h : List Node) (ps : List Ptr)
    (halloc : ∀ p ∈ ps, ∃ m : Node, h[p]? = some m)
    (huniq : ((ps.filterMap (fun p => h[p]?)).map (fun n => (n.NodeType, n.Index))).Nodup) :
    ps.Nodup := by
  induction ps with
  | nil => exact List.nodup_nil
  | cons p ps ih =>
    obtain ⟨m0, hm0⟩ := halloc p (List.mem_cons_self _ _)
    rw [List.filterMap_cons, hm0] at huniq
    simp only [List.map_cons, List.nodup_cons] at huniq
    refine List.nodup_cons.2 ⟨?_, ih (fun p' hp' => halloc p' (List.mem_cons_of_mem _ hp'))
      huniq.2⟩
    intro hp
    apply huniq.1
    exact List.mem_map_of_mem _ (List.mem_filterMap.2 ⟨p, hp, hm0⟩)

theorem identity_once_of_nodup (sc : svgCanvas) (n : Ptr) (nd : Node)
    (hn : sc.heap[n]? = some nd)
    (halloc : ∀ p ∈ sc.nodes, ∃ m : Node, sc.heap[p]? = some m)
    (huniq : sc.liveIdentities.Nodup) :
    ∀ (i j : Nat) (q : Ptr) (m : Node), sc.nodes[i]? = some n → sc.nodes[j]? = some q →
      sc.heap[q]? = some m → m.NodeType = nd.NodeType → m.Index = nd.Index → j = i := by
  intro i j q m hi hj hm mt mi
  have l1 := filterMap_getElem?_of_allocated sc.heap sc.nodes halloc j q m hj hm
  have l2 := filterMap_getElem?_of_allocated sc.heap sc.nodes halloc i n nd hi hn
  have huniq' : (sc.liveNodes.map (fun n : Node => (n.NodeType, n.Index))).Nodup := huniq
  exact nodup_map_index_inj (fun n : Node => (n.NodeType, n.Index)) sc.liveNodes huniq' j i m nd
    l1 l2 (by simp [mt, mi])

/-- C13 (amended).  Let `n` be an allocated node such that no other entry of the
node list has the NodeType and Index of `n`.  If `n` is in the node list and is
the recorded occupant of its cell, DeleteNode returns normally; afterwards `n`
is not in the node list and its cell is free, every other pointer is in the
node list exactly when it was before, every other cell keeps its occupant, and
the heap (hence every connection set) is unchanged.  When the cell of `n` is
not in the occupancy index, or no node of the list has the NodeType and Index
of `n`, DeleteNode panics. -/
theorem DeleteNode_contract (sc : svgCanvas) (n : Ptr) (nd : Node)
    (hn : sc.heap[n]? = some nd)
    (huniq : ∀ (i j : Nat) (q : Ptr) (m : Node), sc.nodes[i]? = some n →
      sc.nodes[j]? = some q → sc.heap[q]? = some m → m.NodeType = nd.NodeType →
      m.Index = nd.Index → j = i) :
    (n ∈ sc.nodes → mapGet? sc.posToNode (nd.X, nd.Y) = some n →
      ∃ sc1 : svgCanvas, sc.DeleteNode (some n) = Res.ok sc1 ∧
        n ∉ sc1.nodes ∧
        mapGet? sc1.posToNode (nd.X, nd.Y) = none ∧
        (∀ q, q ≠ n → (q ∈ sc1.nodes ↔ q ∈ sc.nodes)) ∧
        (∀ cell, cell ≠ (nd.X, nd.Y) → mapGet? sc1.posToNode cell = mapGet? sc.posToNode cell) ∧
        sc1.heap = sc.heap ∧ sc1.selectedNode = sc.selectedNode ∧ sc1.history = sc.history) ∧
    (mapGet? sc.posToNode (nd.X, nd.Y) = none →
      sc.DeleteNode (some n) = Res.panic Panic.expectedToExist) ∧
    ((∀ q ∈ sc.nodes, ∀ m : Node, sc.heap[q]? = some m →
        ¬ (m.NodeType = nd.NodeType ∧ m.Index = nd.Index)) →
      sc.DeleteNode (some n) = Res.panic Panic.expectedToExist) := by
  refine ⟨?_, ?_, ?_⟩
  · intro hmem hocc
    obtain ⟨j, hj⟩ := exists_position_of_mem sc.nodes n hmem
    cases hfind : indexFunc sc.heap nd.NodeType nd.Index sc.nodes with
    | none =>
      exact absurd ⟨rfl, rfl⟩ ((indexFunc_none _ _ _ _).1 hfind n hmem nd hn)
    | some i =>
      obtain ⟨q, m, hq, hm, mt, mi⟩ := indexFunc_some _ _ _ _ i hfind
      have hij : i = j := huniq j i q m hj hq hm mt mi
      subst hij
      rw [hj] at hq
      have hqn : n = q := Option.some.inj hq
      subst hqn
      have honce : ∀ k : Nat, sc.nodes[k]? = some n → k = i :=
        fun k hk => huniq i k n nd hj hk hn rfl rfl
      cases hlast : sc.nodes.getLast? with
      | none =>
        rw [List.getLast?_eq_getElem?] at hlast
        have hlt : i < sc.nodes.length := getElem?_lt_of_eq_some' hj
        rw [List.getElem?_eq_getElem (by omega)] at hlast
        cases hlast
      | some last =>
        refine ⟨{ sc with
          posToNode := mapDelete sc.posToNode (nd.X, nd.Y)
          nodes := (sc.nodes.set i last).dropLast
          nodeMap := mapDelete sc.nodeMap (nd.NodeType, nd.Index) }, ?_, ?_, ?_, ?_, ?_, rfl, rfl,
          rfl⟩
        · simp [svgCanvas.DeleteNode, hn, hocc, hfind, hlast]
        · intro hin
          exact ((mem_swap_remove sc.nodes i n last hj honce hlast n).1 hin).2 rfl
        · show mapGet? (mapDelete sc.posToNode (nd.X, nd.Y)) (nd.X, nd.Y) = none
          rw [mapGet?_mapDelete, if_pos rfl]
        · intro q' hq'
          show q' ∈ (sc.nodes.set i last).dropLast ↔ q' ∈ sc.nodes
          rw [mem_swap_remove sc.nodes i n last hj honce hlast q']
          exact ⟨fun h => h.1, fun h => ⟨h, hq'⟩⟩
        · intro cell hcell
          show mapGet? (mapDelete sc.posToNode (nd.X, nd.Y)) cell = mapGet? sc.posToNode cell
          rw [mapGet?_mapDelete, if_neg hcell]
  · intro hnone
    simp [svgCanvas.DeleteNode, hn, hnone]
  · intro hall
    have hfind := (indexFunc_none sc.heap nd.NodeType nd.Index sc.nodes).2 hall
    unfold svgCanvas.DeleteNode
    simp only [Option.bind, hn]
    cases mapGet? sc.posToNode (nd.X, nd.Y) with
    | none => rfl
    | some p =>
      simp only
      rw [hfind]

/-- Instance of DeleteNode_contract: on canvasTwoNodes the VarNode is removed and
the CheckNode stays. -/
theorem DeleteNode_contract_witness :
    ∃ sc1 : svgCanvas, canvasTwoNodes.DeleteNode (some 1) = Res.ok sc1 ∧
      sc1.nodes = [0] ∧ mapGet? sc1.posToNode (1, 0) = none := by
  obtain ⟨sc1, q1, _, q3, _⟩ :=
    (DeleteNode_contract canvasTwoNodes 1 _ rfl
      (identity_once_of_nodup canvasTwoNodes 1 _ rfl
        (by
          intro p hp
          have hp' : p = 0 ∨ p = 1 := by simpa [canvasTwoNodes] using hp
          rcases hp' with e | e <;> subst e <;> exact ⟨_, rfl⟩)
        (by decide))).1 (by decide) rfl
  have e : canvasTwoNodes.DeleteNode (some 1) =
      Res.ok { canvasTwoNodes with
        posToNode := [((0, 0), 0)], nodes := [0], nodeMap := [((NodeType.CheckNode, 0), 0)] } := by
    decide
  rw [e] at q1
  cases q1
  exact ⟨_, e, rfl, q3⟩

/-! ## Click on a free cell -/

theorem ConnectTo_other_type (h : List Node) (a b : Ptr) (na nb : Node)
    (ha : h[a]? = some na) (hb : h[b]? = some nb) (hne : na.NodeType ≠ nb.NodeType) :
    ∃ (r : Bool) (h1 : List Node) (ca cb : List (Int × Ptr)),
      Node.ConnectTo h (some a) (some b) = (Res.ok r, h1) ∧
      h1.length = h.length ∧
      h1[a]? = some { na with Connections := ca } ∧
      h1[b]? = some { nb with Connections := cb } ∧
      (∀ q, q ≠ a → q ≠ b → h1[q]? = h[q]?) ∧
      ((na.NodeType = NodeType.CheckNode → mapGet? na.Connections nb.Index = none) →
        (nb.NodeType = NodeType.CheckNode → mapGet? nb.Connections na.Index = none) →
        (mapGet? ca nb.Index).isSome = true ∧ (mapGet? cb na.Index).isSome = true) := by
  by_cases hta : na.NodeType = NodeType.CheckNode
  · have htb : nb.NodeType = NodeType.VarNode := by
      cases hx : nb.NodeType with
      | CheckNode => exact absurd (hta.trans hx.symm) hne
      | VarNode => rfl
    have hcv := ConnectTo_check_var h a b na nb ha hb hta htb
    cases hg : mapGet? na.Connections nb.Index with
    | none =>
      obtain ⟨h1, cc, cv, e1, _, q3, q4, q5, q6, q7, q8⟩ := hcv.1 hg
      exact ⟨true, h1, cc, cv, e1, q3, q4, q5, q8,
        fun _ _ => ⟨by rw [q6]; simp, by rw [q7]; simp⟩⟩
    | some x =>
      obtain ⟨e1, _⟩ := hcv.2 (by simp [hg])
      refine ⟨false, h, na.Connections, nb.Connections, e1, rfl, ha, hb, fun _ _ _ => rfl, ?_⟩
      intro k1 _
      have k := k1 hta
      simp [hg] at k
  · have hta' : na.NodeType = NodeType.VarNode := (ne_check_iff _).1 hta
    have htb : nb.NodeType = NodeType.CheckNode := by
      cases hx : nb.NodeType with
      | CheckNode => rfl
      | VarNode => exact absurd (hta'.trans hx.symm) hne
    have hcv := ConnectTo_check_var h b a nb na hb ha htb hta'
    cases hg : mapGet? nb.Connections na.Index with
    | none =>
      obtain ⟨h1, cc, cv, _, e2, q3, q4, q5, q6, q7, q8⟩ := hcv.1 hg
      exact ⟨true, h1, cv, cc, e2, q3, q5, q4, fun q k1 k2 => q8 q k2 k1,
        fun _ _ => ⟨by rw [q7]; simp, by rw [q6]; simp⟩⟩
    | some x =>
      obtain ⟨_, e2⟩ := hcv.2 (by simp [hg])
      refine ⟨false, h, na.Connections, nb.Connections, e2, rfl, ha, hb, fun _ _ _ => rfl, ?_⟩
      intro _ k2
      have k := k2 htb
      simp [hg] at k

theorem clickOccupant_fresh (sc : svgCanvas) (p : Ptr) (new : Node)
    (hp : sc.heap[p]? = some new) (hc : new.Connections = [])
    (hsel : ∀ s, sc.selectedNode = some s → s ≠ p ∧ ∃ sn : Node, sc.heap[s]? = some sn ∧
      sn.NodeType ≠ new.NodeType) :
    ∃ (sc1 : svgCanvas) (nn : Node), sc.clickOccupant (some p) true = Res.ok sc1 ∧
      sc1.nodes = sc.nodes ∧ sc1.posToNode = sc.posToNode ∧ sc1.selectedNode = some p ∧
      sc1.heap[p]? = some nn ∧ nn.X = new.X ∧ nn.Y = new.Y ∧ nn.NodeType = new.NodeType ∧
      nn.Index = new.Index ∧ nn.Selected = true ∧
      sc1.history.length = sc.history.length + 1 ∧
      (sc.selectedNode = none → nn.Connections = []) ∧
      (∀ (s : Ptr) (sn : Node), sc.selectedNode = some s → sc.heap[s]? = some sn →
        ∃ sn1 : Node, sc1.heap[s]? = some sn1 ∧ sn1.Selected = false ∧
          sn1.NodeType = sn.NodeType ∧ sn1.Index = sn.Index ∧
          ((sn.NodeType = NodeType.CheckNode → mapGet? sn.Connections new.Index = none) →
            nn.connectedTo sn1 = true ∧ sn1.connectedTo nn = true)) := by
  cases hs : sc.selectedNode with
  | none =>
    refine ⟨svgCanvas.addToHistory { sc with
        selectedNode := some p
        heap := heapModify sc.heap p (fun a => { a with Selected := true }) },
      { new with Selected := true }, ?_, rfl, rfl, rfl, ?_, rfl, rfl, rfl, rfl, rfl, ?_, ?_, ?_⟩
    · simp [svgCanvas.clickOccupant, hs, svgCanvas.selectAndRecord, hp]
    · show (heapModify sc.heap p _)[p]? = _
      rw [getElem?_heapModify, if_pos rfl, hp]
      rfl
    · simp [svgCanvas.addToHistory]
    · intro _; exact hc
    · intro s sn h1
      cases h1
  | some s =>
    obtain ⟨hsp, sn, hsn, hne⟩ := hsel s hs
    have hps : ¬ p = s := fun e => hsp e.symm
    have hs1 : (heapModify sc.heap s (fun a => { a with Selected := false }))[s]? =
        some { sn with Selected := false } := by
      rw [getElem?_heapModify, if_pos rfl, hsn]; rfl
    have hp1 : (heapModify sc.heap s (fun a => { a with Selected := false }))[p]? =
        some new := by
      rw [getElem?_heapModify, if_neg hps, hp]
    obtain ⟨r, h2, ca, cb, e1, _, q4, q5, _, qc⟩ :=
      ConnectTo_other_type _ s p { sn with Selected := false } new hs1 hp1 hne
    refine ⟨svgCanvas.addToHistory { sc with
        selectedNode := some p
        heap := heapModify h2 p (fun a => { a with Selected := true }) },
      { new with Connections := cb, Selected := true }, ?_, rfl, rfl, rfl, ?_, rfl, rfl, rfl,
      rfl, rfl, ?_, ?_, ?_⟩
    · have hnp : ¬ some p = some s := fun e => hps (Option.some.inj e)
      simp [svgCanvas.clickOccupant, hs, hnp, hs1, hp1, hne, e1, svgCanvas.selectAndRecord, q5]
    · show (heapModify h2 p _)[p]? = _
      rw [getElem?_heapModify, if_pos rfl, q5]
      rfl
    · simp [svgCanvas.addToHistory]
    · intro h1; cases h1
    · intro s' sn' h1 h2'
      cases h1
      rw [hsn] at h2'
      cases h2'
      refine ⟨{ sn with Selected := false, Connections := ca }, ?_, rfl, rfl, rfl, ?_⟩
      · show (heapModify h2 p _)[s]? = _
        rw [getElem?_heapModify, if_neg (fun e => hps e.symm), q4]
      · intro hnew
        obtain ⟨q6, q7⟩ := qc hnew (fun _ => by rw [hc]; rfl)
        exact ⟨q7, q6⟩

theorem free_cell_click_as (sc : svgCanvas) (x y : Int) (t : NodeType)
    (hfree : mapGet? sc.posToNode (x, y) = none)
    (hcreate : sc.createOnFreeCell x y = ((sc.createNewNode t x y).1, true))
    (hsel : ∀ s, sc.selectedNode = some s → ∃ sn : Node, sc.heap[s]? = some sn ∧
      sn.NodeType ≠ t) :
    ∃ (sc1 : svgCanvas) (nn : Node), sc.OnClick x y = Res.ok sc1 ∧
      sc1.nodes = sc.nodes ++ [sc.heap.length] ∧
      mapGet? sc1.posToNode (x, y) = some sc.heap.length ∧
      sc1.selectedNode = some sc.heap.length ∧
      sc1.heap[sc.heap.length]? = some nn ∧ nn.X = x ∧ nn.Y = y ∧ nn.NodeType = t ∧
      nn.Selected = true ∧
      sc1.history.length = sc.history.length + 1 ∧
      (sc.selectedNode = none → nn.Connections = []) ∧
      (∀ (s : Ptr) (sn : Node), sc.selectedNode = some s → sc.heap[s]? = some sn →
        ∃ sn1 : Node, sc1.heap[s]? = some sn1 ∧ sn1.Selected = false ∧
          sn1.NodeType = sn.NodeType ∧ sn1.Index = sn.Index ∧
          ((sn.NodeType = NodeType.CheckNode → mapGet? sn.Connections (sc.count t) = none) →
            nn.connectedTo sn1 = true ∧ sn1.connectedTo nn = true)) := by
  have hnode := createNode_free sc t (sc.count t) x y hfree
  generalize hsc' : (sc.createNode t (sc.count t) x y).1 = sc' at hnode
  have hOn : sc.OnClick x y = sc'.clickOccupant (mapGet? sc'.posToNode (x, y)) true := by
    unfold svgCanvas.OnClick
    simp only
    rw [hcreate]
    unfold svgCanvas.createNewNode
    rw [hsc']
  have hfst := congrArg Prod.fst hnode
  simp only at hfst
  have f1 : sc'.heap = sc.heap ++ [nodeOfRecord
      { Connections := [], Index := sc.count t, X := x, Y := y, Type' := t }] := by
    rw [← hsc', hfst]; rfl
  have f2 : sc'.nodes = sc.nodes ++ [sc.heap.length] := by rw [← hsc', hfst]
  have f3 : sc'.posToNode = mapSet sc.posToNode (x, y) sc.heap.length := by rw [← hsc', hfst]
  have f4 : sc'.selectedNode = sc.selectedNode := by rw [← hsc', hfst]
  have f5 : sc'.history = sc.history := by rw [← hsc', hfst]
  have hlookup : ∀ (q : Ptr) (m : Node), sc.heap[q]? = some m → sc'.heap[q]? = some m := by
    intro q m hq
    rw [f1, List.getElem?_append_left (getElem?_lt_of_eq_some _ _ _ hq)]
    exact hq
  have hocc : mapGet? sc'.posToNode (x, y) = some sc.heap.length := by
    rw [f3, mapGet?_mapSet, if_pos rfl]
  rw [hocc] at hOn
  obtain ⟨sc1, nn, r1, r2, r3, r4, r5, r6, r7, r8, _, r10, r11, r12, r13⟩ :=
    clickOccupant_fresh sc' sc.heap.length
      (nodeOfRecord { Connections := [], Index := sc.count t, X := x, Y := y, Type' := t })
      (by
        rw [f1, List.getElem?_append_right (Nat.le_refl _)]
        simp)
      rfl
      (by
        intro s hs
        rw [f4] at hs
        obtain ⟨sn, hsn, h1⟩ := hsel s hs
        refine ⟨?_, sn, hlookup s sn hsn, h1⟩
        have hlt : s < sc.heap.length := getElem?_lt_of_eq_some _ _ _ hsn
        exact Nat.ne_of_lt hlt)
  refine ⟨sc1, nn, hOn.trans r1, r2.trans f2, ?_, r4, r5, r6, r7, r8, r10, ?_, ?_, ?_⟩
  · rw [r3]; exact hocc
  · rw [r11, f5]
  · intro h
    exact r12 (f4.trans h)
  · intro s sn hs hsn
    exact r13 s sn (f4.trans hs) (hlookup s sn hsn)

/-- C20 (amended).  Let the cell (x, y) be free and the selected node, if there is
one, be allocated (as every Go pointer is).  Then the click returns normally;
the node list is the old one with one new pointer appended; the new node lies
at (x, y), is the occupant of the cell, is a VarNode if a CheckNode was
selected and a CheckNode if a VarNode or nothing was selected, and is the
selection with its flag set; one history entry is appended; a node that was
selected before is deselected.  If the previously selected node is a CheckNode
whose connection set does not already hold the Index minted for the new VarNode
(the VarNode counter), or is a VarNode, then it and the new node hold each
other's Index. -/
theorem OnClick_free_cell (sc : svgCanvas) (x y : Int)
    (hfree : mapGet? sc.posToNode (x, y) = none)
    (hsel : ∀ s, sc.selectedNode = some s → ∃ sn : Node, sc.heap[s]? = some sn) :
    ∃ (sc1 : svgCanvas) (nn : Node), sc.OnClick x y = Res.ok sc1 ∧
      sc.heap[sc.heap.length]? = none ∧
      sc1.nodes = sc.nodes ++ [sc.heap.length] ∧
      mapGet? sc1.posToNode (x, y) = some sc.heap.length ∧
      sc1.selectedNode = some sc.heap.length ∧
      sc1.heap[sc.heap.length]? = some nn ∧ nn.X = x ∧ nn.Y = y ∧ nn.Selected = true ∧
      sc1.history.length = sc.history.length + 1 ∧
      (sc.selectedNode = none → nn.NodeType = NodeType.CheckNode ∧ nn.Connections = []) ∧
      (∀ (s : Ptr) (sn : Node), sc.selectedNode = some s → sc.heap[s]? = some sn →
        (sn.NodeType = NodeType.CheckNode → nn.NodeType = NodeType.VarNode) ∧
        (sn.NodeType = NodeType.VarNode → nn.NodeType = NodeType.CheckNode) ∧
        ∃ sn1 : Node, sc1.heap[s]? = some sn1 ∧ sn1.Selected = false ∧
          sn1.NodeType = sn.NodeType ∧ sn1.Index = sn.Index ∧
          ((sn.NodeType = NodeType.CheckNode →
              mapGet? sn.Connections (sc.count NodeType.VarNode) = none) →
            nn.connectedTo sn1 = true ∧ sn1.connectedTo nn = true)) := by
  have hspace : sc.spaceFreeAt x y = true := by
    simp [svgCanvas.spaceFreeAt, hfree]
  have hnone : sc.heap[sc.heap.length]? = none := List.getElem?_eq_none (Nat.le_refl _)
  cases hs : sc.selectedNode with
  | none =>
    have hcreate : sc.createOnFreeCell x y =
        ((sc.createNewNode NodeType.CheckNode x y).1, true) := by
      simp [svgCanvas.createOnFreeCell, hspace, hs]
    obtain ⟨sc1, nn, r1, r2, r3, r4, r5, r6, r7, r8, r9, r10, r11, _⟩ :=
      free_cell_click_as sc x y NodeType.CheckNode hfree hcreate
        (by intro s h; rw [hs] at h; cases h)
    refine ⟨sc1, nn, r1, hnone, r2, r3, r4, r5, r6, r7, r9, r10, ?_, ?_⟩
    · intro _
      exact ⟨r8, r11 hs⟩
    · intro s sn h
      cases h
  | some s0 =>
    obtain ⟨sn0, hsn0⟩ := hsel s0 hs
    by_cases ht : sn0.NodeType = NodeType.CheckNode
    · have hcreate : sc.createOnFreeCell x y =
          ((sc.createNewNode NodeType.VarNode x y).1, true) := by
        simp [svgCanvas.createOnFreeCell, hspace, hs, hsn0, ht]
      obtain ⟨sc1, nn, r1, r2, r3, r4, r5, r6, r7, r8, r9, r10, _, r12⟩ :=
        free_cell_click_as sc x y NodeType.VarNode hfree hcreate
          (by
            intro s h
            rw [hs] at h
            cases h
            exact ⟨sn0, hsn0, by rw [ht]; decide⟩)
      refine ⟨sc1, nn, r1, hnone, r2, r3, r4, r5, r6, r7, r9, r10, ?_, ?_⟩
      · intro h; cases h
      · intro s sn h hsn
        cases h
        rw [hsn0] at hsn
        cases hsn
        have hno : sn0.NodeType = NodeType.VarNode → nn.NodeType = NodeType.CheckNode := by
          intro hv
          rw [ht] at hv
          cases hv
        exact ⟨fun _ => r8, hno, r12 s0 sn0 hs hsn0⟩
    · have ht' : sn0.NodeType = NodeType.VarNode := (ne_check_iff _).1 ht
      have hcreate : sc.createOnFreeCell x y =
          ((sc.createNewNode NodeType.CheckNode x y).1, true) := by
        simp [svgCanvas.createOnFreeCell, hspace, hs, hsn0, ht]
      obtain ⟨sc1, nn, r1, r2, r3, r4, r5, r6, r7, r8, r9, r10, _, r12⟩ :=
        free_cell_click_as sc x y NodeType.CheckNode hfree hcreate
          (by
            intro s h
            rw [hs] at h
            cases h
            exact ⟨sn0, hsn0, ht⟩)
      refine ⟨sc1, nn, r1, hnone, r2, r3, r4, r5, r6, r7, r9, r10, ?_, ?_⟩
      · intro h; cases h
      · intro s sn h hsn
        cases h
        rw [hsn0] at hsn
        cases hsn
        obtain ⟨sn1, k1, k2, k3, k4, k5⟩ := r12 s0 sn0 hs hsn0
        exact ⟨fun hc => absurd hc ht, fun _ => r8, sn1, k1, k2, k3, k4,
          fun _ => k5 (fun hc => absurd hc ht)⟩

/-- Instance of OnClick_free_cell on canvasOneNode, where the CheckNode 0 is
selected and holds no connection: the click on the free cell (1,0) appends a
node, which is a VarNode, is selected, and is connected with the CheckNode in
both directions. -/
theorem OnClick_free_cell_witness :
    mapGet? canvasOneNode.posToNode (1, 0) = none ∧
    ∃ (sc1 : svgCanvas) (nn sn1 : Node), canvasOneNode.OnClick 1 0 = Res.ok sc1 ∧
      sc1.nodes = [0, 1] ∧ sc1.selectedNode = some 1 ∧ sc1.heap[1]? = some nn ∧
      nn.NodeType = NodeType.VarNode ∧ nn.Selected = true ∧
      sc1.history.length = 2 ∧
      sc1.heap[0]? = some sn1 ∧ sn1.Selected = false ∧
      nn.connectedTo sn1 = true ∧ sn1.connectedTo nn = true := by
  obtain ⟨sc1, nn, q1, _, q3, _, q5, q6, _, _, q9, q10, _, q12⟩ :=
    OnClick_free_cell canvasOneNode 1 0 rfl
      (by
        intro s hs
        have e : s = 0 := by
          have : some 0 = some s := hs
          exact (Option.some.inj this).symm
        subst e
        exact ⟨_, rfl⟩)
  obtain ⟨k1, _, sn1, k3, k4, _, _, k7⟩ := q12 0 _ rfl rfl
  obtain ⟨k8, k9⟩ := k7 (fun _ => rfl)
  exact ⟨rfl, sc1, nn, sn1, q1, q3, q5, q6, k1 rfl, q9, q10, k3, k4, k8, k9⟩

end GraphEditor
